import Mathlib

/-!
Verification of the ai-catalog duplicate-detection and batch-classification
core against its natural-language specification.

The Python sources are shallowly embedded:
* database rows become Lean structures, tables become `List`s of rows;
* SQL statements become the corresponding pure list operations;
* Python `float` values (key weights, confidence scores) are modelled as
  exact rationals `ℚ`, written with `mkRat` so that they evaluate; every
  float the code compares or stores is a short decimal literal, so the
  rational model agrees with IEEE double comparison on all values that
  actually occur;
* the external network services (OpenAI / Anthropic clients, `psycopg2`
  connections) are modelled at their call boundary: a response oracle is an
  explicit function parameter, and the database connection is the threaded
  state.

Each section names the Python definition it embeds.
-/

/-! ## duplicate_dictionary rows  (database.py, CREATE TABLE duplicate_dictionary)

`hash_key` is the primary key.  `normalized_form` and `created_at` are never
read nor written by the operations verified here and are omitted. -/

structure DictEntry where
  hash_key : String
  duplicate_group_id : Int
  key_type : String
  confidence_weight : ℚ
  master_product_id : Option Int
  hit_count : Int
deriving Repr, DecidableEq

/-- products_enhanced rows (database.py); only the columns read by the
operations under verification are modelled. -/
structure ProductRow where
  id : Int
  duplicate_group_id : Option Int
deriving Repr, DecidableEq

/-- The PostgreSQL connection state: the two tables the verified
operations touch. -/
structure DbState where
  products_enhanced : List ProductRow
  duplicate_dictionary : List DictEntry
deriving Repr, DecidableEq

/-- DUPLICATE_DETECTION_CONFIG["key_weights"] (database.py lines 340-347).
Weights written as exact rationals: 1.0, 0.95, 0.90, 0.85, 0.85, 0.75. -/
def key_weights : List (String × ℚ) :=
  [("exact", mkRat 100 100),
   ("alpha", mkRat 95 100),
   ("sorted", mkRat 90 100),
   ("core", mkRat 85 100),
   ("dim", mkRat 85 100),
   ("phon", mkRat 75 100)]

/-- DUPLICATE_DETECTION_CONFIG["duplicate_threshold"] = 0.85. -/
def duplicate_threshold : ℚ := mkRat 85 100

/-- Python `key_weights.get(key_type, 0.5)` (database.py line 158). -/
def keyWeight (w : List (String × ℚ)) (kt : String) : ℚ :=
  ((w.lookup kt).getD (mkRat 5 10))

/-- The SELECT in check_duplicate_by_keys (database.py lines 150-156):
first dictionary row whose hash_key and key_type both match. -/
def findEntry (dict : List DictEntry) (hk kt : String) : Option DictEntry :=
  dict.find? (fun e => e.hash_key == hk && e.key_type == kt)

/-- The UPDATE in check_duplicate_by_keys (database.py lines 164-168):
`SET hit_count = hit_count + 1 WHERE hash_key = %s` (note: no key_type
filter).  Also the DO UPDATE arm of register_product_keys. -/
def bumpHitCount (dict : List DictEntry) (hk : String) : List DictEntry :=
  dict.map (fun e => if e.hash_key == hk then { e with hit_count := e.hit_count + 1 } else e)

/-- The for-loop of check_duplicate_by_keys (database.py lines 149-168),
threading the table because the loop itself UPDATEs hit_count.
Accumulator `(best_match, best_score)` starts as `(None, 0.0)`. -/
def check_scan (w : List (String × ℚ)) (ks : List (String × String))
    (dict : List DictEntry) (best_match : Option Int) (best_score : ℚ) :
    List DictEntry × Option Int × ℚ :=
  match ks with
  | [] => (dict, best_match, best_score)
  | (key_type, hash_key) :: rest =>
    match findEntry dict hash_key key_type with
    | some e =>
        let score := keyWeight w key_type
        if score > best_score then
          check_scan w rest (bumpHitCount dict hash_key) (some e.duplicate_group_id) score
        else
          check_scan w rest (bumpHitCount dict hash_key) best_match best_score
    | none => check_scan w rest dict best_match best_score

/-- DatabaseManager.check_duplicate_by_keys (database.py lines 139-172).
Returns the updated duplicate_dictionary together with the Python return
value.  The final guard is Python `if best_match and best_score >= 0.85`,
where `best_match` is falsy both when None and when 0. -/
def check_duplicate_by_keys (dict : List DictEntry)
    (hash_keys : List (String × String)) (w : List (String × ℚ)) :
    List DictEntry × Option (Int × ℚ) :=
  let r := check_scan w hash_keys dict none 0
  (r.1,
    match r.2.1 with
    | some g => if g ≠ 0 ∧ r.2.2 ≥ mkRat 85 100 then some (g, r.2.2) else none
    | none => none)

/-- One INSERT ... ON CONFLICT (hash_key) DO UPDATE SET hit_count =
hit_count + 1 of register_product_keys (database.py lines 179-186); this is
the spec's `insertOrBump`.  A fresh row gets the table default
hit_count = 0. -/
def insertOrBump (dict : List DictEntry) (hash_key : String)
    (duplicate_group_id : Int) (key_type : String)
    (confidence_weight : ℚ) (master_product_id : Int) : List DictEntry :=
  if dict.any (fun e => e.hash_key == hash_key) then
    bumpHitCount dict hash_key
  else
    dict ++ [{ hash_key := hash_key,
               duplicate_group_id := duplicate_group_id,
               key_type := key_type,
               confidence_weight := confidence_weight,
               master_product_id := some master_product_id,
               hit_count := 0 }]

/-- DatabaseManager.register_product_keys (database.py lines 174-194): one
insertOrBump per (key_type, hash_key) pair; the hash_key_log insert touches
a separate table and is not modelled. -/
def register_product_keys (dict : List DictEntry) (product_id : Int)
    (hash_keys : List (String × String)) (duplicate_group_id : Int)
    (w : List (String × ℚ)) : List DictEntry :=
  hash_keys.foldl
    (fun d kv => insertOrBump d kv.2 duplicate_group_id kv.1 (keyWeight w kv.1) product_id)
    dict

/-- DatabaseManager.get_next_group_id (database.py lines 269-276):
`SELECT COALESCE(MAX(duplicate_group_id), 0) + 1 FROM products_enhanced`.
SQL MAX ignores NULLs and is NULL on an empty set. -/
def get_next_group_id (products : List ProductRow) : Int :=
  (match products.filterMap (fun r => r.duplicate_group_id) with
   | [] => 0
   | v :: vs => vs.foldl max v) + 1

/-- A product record as it leaves classify_batch and flows through
detect_duplicates (classify.py): the duplicate-detection fields start unset
and are assigned by detect_duplicates. -/
structure ClassifiedProduct where
  original_name : String
  normalized_name : String
  hash_keys : List (String × String)
  duplicate_group_id : Int := 0
  similarity_score : ℚ := 0
  is_master : Bool := false

/-- GPT5HybridClassifier.detect_duplicates (classify.py lines 256-280).
The loop threads the dictionary (check_duplicate_by_keys bumps hit counts)
but never writes products_enhanced, so get_next_group_id always reads the
same table. -/
def detect_duplicates (db : DbState) (ps : List ClassifiedProduct) :
    DbState × List ClassifiedProduct :=
  match ps with
  | [] => (db, [])
  | p :: rest =>
    let r := check_duplicate_by_keys db.duplicate_dictionary p.hash_keys key_weights
    let db' : DbState := { db with duplicate_dictionary := r.1 }
    let p' := match r.2 with
      | some gs => { p with duplicate_group_id := gs.1,
                            similarity_score := gs.2,
                            is_master := false }
      | none => { p with duplicate_group_id := get_next_group_id db.products_enhanced,
                         similarity_score := 1,
                         is_master := true }
    let rec' := detect_duplicates db' rest
    (rec'.1, p' :: rec'.2)

/-! ## String utilities

Python string primitives, embedded over `List Char` so that everything
evaluates by kernel reduction.  `str.lower` and the NFD accent stripping
are modelled on the ASCII plus Latin-1 repertoire this catalog uses; ASCII
characters behave exactly as in Python. -/

/-- Python `str.lower` for one character: boundary model covering ASCII
A-Z and the accented Latin capitals that occur in this catalog's data. -/
def pyCharLower (c : Char) : Char :=
  if 'A' ≤ c ∧ c ≤ 'Z' then Char.ofNat (c.toNat + 32)
  else match c with
  | 'Á' => 'á' | 'À' => 'à' | 'Â' => 'â' | 'Ã' => 'ã' | 'Ä' => 'ä'
  | 'É' => 'é' | 'È' => 'è' | 'Ê' => 'ê' | 'Ë' => 'ë'
  | 'Í' => 'í' | 'Ì' => 'ì' | 'Î' => 'î' | 'Ï' => 'ï'
  | 'Ó' => 'ó' | 'Ò' => 'ò' | 'Ô' => 'ô' | 'Õ' => 'õ' | 'Ö' => 'ö'
  | 'Ú' => 'ú' | 'Ù' => 'ù' | 'Û' => 'û' | 'Ü' => 'ü'
  | 'Ç' => 'ç' | 'Ñ' => 'ñ'
  | _ => c

def strLowerChars (l : List Char) : List Char := l.map pyCharLower

/-- The whitespace set of Python `str.split()` / `str.strip()`. -/
def pyIsSpace (c : Char) : Bool :=
  c == ' ' || c == '\t' || c == '\n' || c == '\r' || c == '\x0b' || c == '\x0c'

/-- Python `str.strip()`. -/
def pyStrip (l : List Char) : List Char :=
  ((l.dropWhile pyIsSpace).reverse.dropWhile pyIsSpace).reverse

/-- Python `str.split()` with no argument: split on whitespace runs,
dropping empty fields. -/
def splitWsChars : List Char → List Char → List (List Char)
  | [], acc => if acc.isEmpty then [] else [acc.reverse]
  | c :: cs, acc =>
    if pyIsSpace c then
      if acc.isEmpty then splitWsChars cs [] else acc.reverse :: splitWsChars cs []
    else splitWsChars cs (c :: acc)

def pySplitWs (l : List Char) : List (List Char) := splitWsChars l []

/-- Python `sep.join(parts)`. -/
def joinChars (sep : List Char) : List (List Char) → List Char
  | [] => []
  | [w] => w
  | w :: ws => w ++ sep ++ joinChars sep ws

/-- Python `pat in s` (substring containment). -/
def containsSeq (pat : List Char) : List Char → Bool
  | [] => pat.isPrefixOf []
  | l@(_ :: cs) => pat.isPrefixOf l || containsSeq pat cs

/-- Python `str.replace(pat, repl)`: leftmost non-overlapping replacement
of every occurrence.  Fuel-structured so it evaluates by kernel reduction;
the wrapper supplies fuel `l.length`, which is enough because every step
consumes at least one character. -/
def replaceAllGo (pat repl : List Char) : Nat → List Char → List Char
  | 0, l => l
  | _ + 1, [] => []
  | fuel + 1, c :: cs =>
    if pat.isPrefixOf (c :: cs) then
      repl ++ replaceAllGo pat repl fuel ((c :: cs).drop pat.length)
    else
      c :: replaceAllGo pat repl fuel cs

def replaceAll (pat repl l : List Char) : List Char :=
  if pat.isEmpty then l else replaceAllGo pat repl l.length l

/-- Python string comparison (lexicographic by code point), as used by
`sorted(...)`. -/
def charsLe : List Char → List Char → Bool
  | [], _ => true
  | _ :: _, [] => false
  | a :: as, b :: bs =>
    if a.toNat < b.toNat then true
    else if b.toNat < a.toNat then false
    else charsLe as bs

/-- Python `sorted` on a list of strings. -/
def sortWordList (ws : List (List Char)) : List (List Char) :=
  List.insertionSort (fun a b => charsLe a b = true) ws

/-- Digit-string to number, for the Python `float(...)` model. -/
def digitsVal (l : List Char) : Nat :=
  l.foldl (fun acc c => 10 * acc + (c.toNat - 48)) 0

/-- Python `float(s)` restricted to the strings reachable here (digits and
dots): accepts `123`, `12.5`, `.5`, `5.`; rejects the empty string, a bare
dot, and anything with stray characters (those raise ValueError). -/
def pyFloat (l : List Char) : Option ℚ :=
  let ip := l.span Char.isDigit
  match ip.2 with
  | [] => if ip.1.isEmpty then none else some ((digitsVal ip.1 : ℚ))
  | '.' :: r₂ =>
    let fp := r₂.span Char.isDigit
    match fp.2 with
    | [] =>
      if ip.1.isEmpty ∧ fp.1.isEmpty then none
      else some (mkRat (digitsVal (ip.1 ++ fp.1)) (10 ^ fp.1.length))
    | _ => none
  | _ => none

def digitChar (n : Nat) : Char := Char.ofNat (48 + n)

/-- Decimal digits of a natural number (fuel-structured). -/
def natDigitsGo : Nat → Nat → List Char
  | 0, _ => []
  | fuel + 1, n => if n < 10 then [digitChar n] else natDigitsGo fuel (n / 10) ++ [digitChar (n % 10)]

def natDigits (n : Nat) : List Char := natDigitsGo (n + 1) n

/-- Round to the nearest integer, ties to even — the rounding of Python
float formatting, applied here to the exact rational value. -/
def roundHalfEven (q : ℚ) : Int :=
  let f := ⌊q⌋
  let r := q - f
  if r < mkRat 1 2 then f
  else if r > mkRat 1 2 then f + 1
  else if f % 2 = 0 then f else f + 1

/-- Python `f"{x:.2f}"` for the nonnegative values produced by dimension
normalization (floats modelled as exact rationals). -/
def formatF2 (q : ℚ) : List Char :=
  let n := (roundHalfEven (q * 100)).toNat
  natDigits (n / 100) ++ '.' :: digitChar (n % 100 / 10) :: [digitChar (n % 10)]

/-- Python `f"{x:.1f}"`, same model with one decimal. -/
def formatF1 (q : ℚ) : List Char :=
  let n := (roundHalfEven (q * 10)).toNat
  natDigits (n / 10) ++ '.' :: [digitChar (n % 10)]

/-- Boundary model of `hashlib.md5(s.encode()).hexdigest()`: a
deterministic 32-hex-character content digest of the input.  The digest
function is standard-library code; only determinism and the fixed 32
character length matter to the verified claims, so the actual MD5
compression rounds are replaced by a simple character fold. -/
def md5_hexdigest (s : List Char) : List Char :=
  let h := s.foldl (fun h c => (h * 131 + c.toNat) % (2 ^ 128)) 5381
  ((Nat.toDigits 16 h) ++ List.replicate 32 '0').take 32

/-! ## GPT5HybridClassifier key generation (classify.py lines 36-130)

The four `re.findall` patterns of `_extract_dimensions` and the four
word-boundary vocabularies of `_extract_core_terms` are hand-compiled
scanners over `List Char` with the leftmost, non-overlapping, greedy
semantics of the Python `re` module on these particular patterns. -/

/-- Generic `re.findall` driver: scan left to right, at each position try
`matchAt`; on a hit record the captured value and resume after the match
(every `matchAt` used here consumes at least one character).  Fuel is the
input length. -/
def scanAllGo {α : Type} (matchAt : List Char → Option (α × List Char)) :
    Nat → List Char → List α
  | 0, _ => []
  | _ + 1, [] => []
  | fuel + 1, l@(_ :: cs) =>
    match matchAt l with
    | some m => m.1 :: scanAllGo matchAt fuel m.2
    | none => scanAllGo matchAt fuel cs

def scanAll {α : Type} (matchAt : List Char → Option (α × List Char))
    (l : List Char) : List α :=
  scanAllGo matchAt l.length l

/-- The unit alternation `(mm|cm|m|pol|")`, tried in the regex's order. -/
def unitAt (l : List Char) : Option (List Char × List Char) :=
  if ("mm".data).isPrefixOf l then some ("mm".data, l.drop 2)
  else if ("cm".data).isPrefixOf l then some ("cm".data, l.drop 2)
  else if ("m".data).isPrefixOf l then some ("m".data, l.drop 1)
  else if ("pol".data).isPrefixOf l then some ("pol".data, l.drop 3)
  else if (['"']).isPrefixOf l then some (['"'], l.drop 1)
  else none

/-- Pattern `(\d+(?:[.,]\d+)?)\s*(mm|cm|m|pol|")`: number group and unit
group.  The optional fractional part is greedy, with the regex's backtrack
to the fraction-less reading when no unit follows. -/
def matchP1At (l : List Char) : Option ((List Char × List Char) × List Char) :=
  let s := l.span Char.isDigit
  if s.1.isEmpty then none
  else
    let withFrac : Option ((List Char × List Char) × List Char) :=
      match s.2 with
      | c :: r₂ =>
        if c == '.' || c == ',' then
          let f := r₂.span Char.isDigit
          if f.1.isEmpty then none
          else
            match unitAt (f.2.dropWhile pyIsSpace) with
            | some ur => some ((s.1 ++ c :: f.1, ur.1), ur.2)
            | none => none
        else none
      | [] => none
    match withFrac with
    | some m => some m
    | none =>
      match unitAt (s.2.dropWhile pyIsSpace) with
      | some ur => some ((s.1, ur.1), ur.2)
      | none => none

/-- Trailing number `\d+(?:[.,]\d+)?` (nothing follows, so greedy is
final). -/
def numAt (l : List Char) : Option (List Char × List Char) :=
  let s := l.span Char.isDigit
  if s.1.isEmpty then none
  else match s.2 with
    | c :: r₂ =>
      if c == '.' || c == ',' then
        let f := r₂.span Char.isDigit
        if f.1.isEmpty then some (s.1, s.2) else some (s.1 ++ c :: f.1, f.2)
      else some (s.1, s.2)
    | [] => some (s.1, [])

/-- Pattern `(\d+(?:[.,]\d+)?)\s*x\s*(\d+(?:[.,]\d+)?)`. -/
def matchP2At (l : List Char) : Option ((List Char × List Char) × List Char) :=
  let s := l.span Char.isDigit
  if s.1.isEmpty then none
  else
    let afterX : List Char → Option (List Char × List Char) := fun rest =>
      match rest.dropWhile pyIsSpace with
      | 'x' :: r => numAt (r.dropWhile pyIsSpace)
      | _ => none
    let withFrac : Option ((List Char × List Char) × List Char) :=
      match s.2 with
      | c :: r₂ =>
        if c == '.' || c == ',' then
          let f := r₂.span Char.isDigit
          if f.1.isEmpty then none
          else match afterX f.2 with
            | some nr => some ((s.1 ++ c :: f.1, nr.1), nr.2)
            | none => none
        else none
      | [] => none
    match withFrac with
    | some m => some m
    | none =>
      match afterX s.2 with
      | some nr => some ((s.1, nr.1), nr.2)
      | none => none

/-- Pattern `M(\d+)` (metric threads; note the capital M, while the text
scanned is lowercased first — kept faithful to the source). -/
def matchP3At (l : List Char) : Option (List Char × List Char) :=
  match l with
  | c :: r =>
    if c == 'M' then
      let s := r.span Char.isDigit
      if s.1.isEmpty then none else some (s.1, s.2)
    else none
  | [] => none

/-- Pattern `(\d+/\d+)` (fractions). -/
def matchP4At (l : List Char) : Option (List Char × List Char) :=
  let s := l.span Char.isDigit
  if s.1.isEmpty then none
  else match s.2 with
    | c :: r =>
      if c == '/' then
        let f := r.span Char.isDigit
        if f.1.isEmpty then none else some (s.1 ++ '/' :: f.1, f.2)
      else none
    | [] => none

/-- Python `str.split(sep)` for a one-character separator (keeps empty
fields). -/
def pySplitCharGo (sep : Char) : List Char → List Char → List (List Char)
  | [], acc => [acc.reverse]
  | c :: cs, acc =>
    if c == sep then acc.reverse :: pySplitCharGo sep cs []
    else pySplitCharGo sep cs (c :: acc)

def pySplitChar (sep : Char) (l : List Char) : List (List Char) :=
  pySplitCharGo sep l []

/-- The per-dimension normalization loop of _extract_dimensions
(classify.py lines 111-128): fraction → two-decimal value, inch marks →
millimetres, anything that raises (zero denominator, unparsable float)
keeps the raw token. -/
def normalizeDim (dim : List Char) : List Char :=
  if dim.contains '/' then
    match pySplitChar '/' dim with
    | p0 :: p1 :: _ =>
      (match pyFloat p0, pyFloat p1 with
       | some a, some b => if b = 0 then dim else formatF2 (a / b)
       | _, _ => dim)
    | _ => dim
  else if containsSeq "pol".data dim || dim.contains '"' then
    match pyFloat (dim.filter (fun c => c.isDigit || c == '.')) with
    | some v => formatF1 (v * mkRat 254 10)
    | none => dim
  else dim

/-- GPT5HybridClassifier._extract_dimensions (classify.py lines 90-130).
For the two multi-group patterns `re.findall` yields tuples and the code
keeps only the first match's nonempty groups; for the single-group
patterns it keeps every match. -/
def extract_dimensions (text : String) : List (List Char) :=
  let low := strLowerChars text.data
  let dimensions :=
    (match scanAll matchP1At low with
     | [] => []
     | ab :: _ => [ab.1, ab.2].filter (fun m => !m.isEmpty)) ++
    (match scanAll matchP2At low with
     | [] => []
     | ab :: _ => [ab.1, ab.2].filter (fun m => !m.isEmpty)) ++
    scanAll matchP3At low ++
    scanAll matchP4At low
  dimensions.map normalizeDim

/-- Python `\w` (ASCII repertoire). -/
def isWordChar (c : Char) : Bool := c.isAlphanum || c == '_'

/-- Whether a word-boundary `\b` follows an alternative matched at the head
of `l`. -/
def boundaryAfter (a l : List Char) : Bool :=
  match l.drop a.length with
  | [] => true
  | d :: _ => !isWordChar d

/-- `re.findall` for a pattern `\b(w1|w2|...)\b` whose alternatives all
start and end with word characters: at each position with a boundary
before it, try the alternatives in the regex's order and accept the first
whose end is also at a boundary. -/
def findAllWordAltsGo (alts : List (List Char)) :
    Nat → List Char → Bool → List (List Char)
  | 0, _, _ => []
  | _ + 1, [], _ => []
  | fuel + 1, l@(c :: cs), prevWord =>
    if prevWord then findAllWordAltsGo alts fuel cs (isWordChar c)
    else
      match alts.find? (fun a => a.isPrefixOf l && boundaryAfter a l) with
      | some a => a :: findAllWordAltsGo alts fuel (l.drop a.length) true
      | none => findAllWordAltsGo alts fuel cs (isWordChar c)

def findAllWordAlts (alts : List (List Char)) (l : List Char) : List (List Char) :=
  findAllWordAltsGo alts l.length l false

def core_pattern1 : List (List Char) :=
  ["parafuso".data, "porca".data, "arruela".data, "chave".data,
   "ferramenta".data, "oleo".data, "graxa".data, "filtro".data,
   "valvula".data, "bomba".data, "motor".data]

def core_pattern2 : List (List Char) :=
  ["sextavado".data, "allen".data, "phillips".data, "fenda".data, "torx".data]

def core_pattern3 : List (List Char) :=
  ["aco".data, "inox".data, "ferro".data, "aluminio".data,
   "plastico".data, "borracha".data]

def core_pattern4 : List (List Char) :=
  ["mm".data, "cm".data, "m".data, "pol".data, "polegada".data,
   "litro".data, "kg".data, "g".data]

/-- GPT5HybridClassifier._extract_core_terms (classify.py lines 72-88).
`list(set(core_terms))` is modelled as first-occurrence deduplication; the
set's iteration order is immaterial because the only consumer sorts. -/
def extract_core_terms (text : String) : List (List Char) :=
  let tl := strLowerChars text.data
  (findAllWordAlts core_pattern1 tl ++ findAllWordAlts core_pattern2 tl ++
   findAllWordAlts core_pattern3 tl ++ findAllWordAlts core_pattern4 tl).eraseDups

/-- GPT5HybridClassifier.generate_hash_keys (classify.py lines 36-70), in
the dict's insertion order: exact, alpha, sorted, core, dim, phon.  The
`original_name` parameter exists in the source but is unused there too. -/
def generate_hash_keys (normalized_name : String) (original_name : String := "") :
    List (String × String) :=
  let n := normalized_name.data
  let lowered := strLowerChars n
  let exact := pyStrip lowered
  let alpha := lowered.filter (fun c => ('a' ≤ c ∧ c ≤ 'z') || c.isDigit)
  let words := pySplitWs lowered
  let sortedKey := joinChars ['_'] (sortWordList words)
  let core := joinChars ['_'] (sortWordList (extract_core_terms normalized_name))
  let dims := extract_dimensions normalized_name
  let dim := if dims.isEmpty then (md5_hexdigest n).take 10 else joinChars ['_'] dims
  let significant := (words.filter (fun w => w.length > 2)).take 4
  let phonKey := (significant.map (fun w => w.take 3)).flatten
  let phon := if phonKey.isEmpty then strLowerChars (n.take 10) else phonKey
  [("exact", ⟨exact⟩), ("alpha", ⟨alpha⟩), ("sorted", ⟨sortedKey⟩),
   ("core", ⟨core⟩), ("dim", ⟨dim⟩), ("phon", ⟨phon⟩)]

/-! ## normalize_product_name (classify.py lines 294-328) -/

/-- NFD base letter for the accented Latin letters of this catalog. -/
def latinBase (c : Char) : Char :=
  match c with
  | 'á' | 'à' | 'â' | 'ã' | 'ä' => 'a'
  | 'é' | 'è' | 'ê' | 'ë' => 'e'
  | 'í' | 'ì' | 'î' | 'ï' => 'i'
  | 'ó' | 'ò' | 'ô' | 'õ' | 'ö' => 'o'
  | 'ú' | 'ù' | 'û' | 'ü' => 'u'
  | 'ç' => 'c'
  | 'ñ' => 'n'
  | _ => c

/-- Boundary model of `unicodedata.normalize('NFD', ·)` followed by
dropping category-Mn characters: accented Latin letters lose their marks,
standalone combining marks (U+0300-U+036F) are dropped, everything else is
fixed. -/
def removeAccentsChar (c : Char) : List Char :=
  if 0x300 ≤ c.toNat ∧ c.toNat ≤ 0x36F then [] else [latinBase c]

/-- The ordered replacement table of normalize_product_name (classify.py
lines 308-320); Python dicts iterate in insertion order. -/
def normalize_replacements : List (String × String) :=
  [("pol", "mm"), ("polegada", "mm"), ("\"", "mm"),
   ("1/2", "12.7"), ("1/4", "6.35"), ("3/4", "19.05"),
   ("3/8", "9.525"), ("5/8", "15.875"),
   ("sext", "sextavado"), ("chav", "chave"), ("p/", "para")]

/-- normalize_product_name (classify.py lines 294-328): lowercase, strip
accents, apply the ordered replacements (each one a full
`str.replace`), collapse whitespace via `' '.join(s.split())`. -/
def normalize_product_name (name : String) : String :=
  let lowered := strLowerChars name.data
  let noAccents := (lowered.map removeAccentsChar).flatten
  let replaced := normalize_replacements.foldl
    (fun s pr => replaceAll pr.1.data pr.2.data s) noAccents
  ⟨joinChars [' '] (pySplitWs replaced)⟩

/-! ## MROClassifier (mro_classifier.py)

The Anthropic client is modelled at its boundary: an oracle mapping the
prompt and the (1-based) attempt number to an outcome.  Prompt texts are
abbreviated — they are opaque to the oracle, which theorems quantify
over.  `time.sleep` is a pure no-op; the doubling backoff counter is kept. -/

inductive ApiOutcome where
  | ok (text : String)
  | rateLimit
  | err (msg : String)
deriving Repr, DecidableEq

def Api : Type := String → Nat → ApiOutcome

/-- `re.search(r"S\d{2}", text)`: leftmost match. -/
def searchSCode : List Char → Option String
  | c :: a :: b :: rest =>
    if c == 'S' && a.isDigit && b.isDigit then some ⟨[c, a, b]⟩
    else searchSCode (a :: b :: rest)
  | _ => none

/-- `re.search(r"C\d{3}", text)`: leftmost match. -/
def searchCCode : List Char → Option String
  | c :: a :: b :: d :: rest =>
    if c == 'C' && a.isDigit && b.isDigit && d.isDigit then some ⟨[c, a, b, d]⟩
    else searchCCode (a :: b :: d :: rest)
  | _ => none

/-- The retry loop of MROClassifier.claude_classify (mro_classifier.py
lines 255-295).  On a successful response the code strips the text,
searches the pattern and returns `m.group()` if the match is truthy,
else None.  RateLimitError always retries (falling off the loop returns
None); any other exception returns None on the last attempt.  Fuel
`remaining` counts the attempts still allowed. -/
def claude_classify_go (api : Api) (prompt : String)
    (extract : List Char → Option String) (max_retries : Nat) :
    Nat → Nat → Nat → Option String
  | 0, _, _ => none
  | remaining + 1, attempt, backoff =>
    match api prompt attempt with
    | .ok text =>
      (match extract (pyStrip text.data) with
       | some m => if m.isEmpty then none else some m
       | none => none)
    | .rateLimit =>
      claude_classify_go api prompt extract max_retries remaining (attempt + 1) (backoff * 2)
    | .err _ =>
      if attempt == max_retries then none
      else claude_classify_go api prompt extract max_retries remaining (attempt + 1) (backoff * 2)

def claude_classify (api : Api) (prompt : String)
    (extract : List Char → Option String) (max_retries : Nat := 5) : Option String :=
  claude_classify_go api prompt extract max_retries max_retries 1 1

/-- setup_taxonomy: self.departments. -/
def departments : List (String × String) :=
  [("D03", "MRO: MATERIAL, REPARO E OPERAÇÃO")]

/-- setup_taxonomy: self.categories_by_dept["D03"] (16 categories). -/
def categories_D03 : List (String × String) :=
  [("S09", "BARRAS E CHAPAS"),
   ("S17", "BATERIAS"),
   ("S25", "BOMBAS E MOTORES"),
   ("S36", "CORRENTES METÁLICAS E ENGRENAGENS"),
   ("S39", "ELEMENTOS DE FIXAÇÃO E VEDAÇÃO"),
   ("S41", "FERRAMENTAS"),
   ("S43", "MATERIAIS DIVERSOS"),
   ("S46", "MATERIAIS HIDRÁULICOS, PNEUMÁTICOS, FILTROS E VÁLVULAS"),
   ("S47", "MATERIAIS ELÉTRICOS E ELETRÔNICOS"),
   ("S49", "LUBRIFICANTES"),
   ("S51", "PARTES MECÂNICAS, ROLAMENTOS E CORREIAS"),
   ("S54", "TUBOS E CONEXÕES"),
   ("S71", "AUTOMAÇÃO INDUSTRIAL"),
   ("S72", "EMBALAGENS"),
   ("S73", "ILUMINAÇÃO"),
   ("S74", "QUÍMICOS INDUSTRIAIS")]

def categories_by_dept : List (String × List (String × String)) :=
  [("D03", categories_D03)]

/-- setup_taxonomy: self.subcategories_by_cat (170 subcategories). -/
def subcategories_by_cat : List (String × List (String × String)) :=
  [("S09",
    [("C037", "Barras de aço"), ("C060", "Chapas"), ("C114", "Ferros Chatos"),
     ("C190", "Formas"), ("C201", "Hastes"), ("C229", "Tarugos")]),
   ("S17",
    [("C001", "Baterias lítio"), ("C056", "Baterias níquel"),
     ("C110", "Baterias tracionárias"), ("C187", "Outras baterias")]),
   ("S25",
    [("C002", "Bombas"), ("C057", "Chaves e compressores"), ("C111", "Hélices"),
     ("C188", "Juntas para bomba"), ("C199", "Motobombas"), ("C228", "Motores"),
     ("C274", "Motovibradores"), ("C293", "Outros componentes bombas e motores"),
     ("C311", "Rotores"), ("C326", "Servomotores")]),
   ("S36",
    [("C042", "Correntes"), ("C095", "Emendas"), ("C145", "Engrenagens"),
     ("C175", "Manilhas"), ("C221", "Olhal"),
     ("C247", "Outras correntes e engrenagens"), ("C268", "Engates")]),
   ("S39",
    [("C026", "Acoplamentos"), ("C080", "Adesivos e fitas"),
     ("C133", "Anéis elásticos"), ("C164", "Chumbadores"),
     ("C215", "Eletrodos de soldas"), ("C241", "Gaxetas"),
     ("C270", "Juntas de vedação"),
     ("C291", "Outros elementos de fixação e vedação"), ("C297", "Retentores"),
     ("C308", "Parafusos, pregos, porcas, buchas e arruelas"),
     ("C325", "Rebites e pinos")]),
   ("S41",
    [("C027", "Abrasivos"), ("C081", "Ferramentas de corte e desbaste"),
     ("C134", "Outras ferramentas manuais"),
     ("C165", "Ferramentas para construção civil"),
     ("C216", "Ferramentas perfuradoras"),
     ("C739", "Acessórios e consumíveis para ferramentas"), ("C740", "Alicates"),
     ("C741", "Chave allen/hexagonal"), ("C742", "Chave biela"),
     ("C743", "Chave combinada"), ("C744", "Chave de fenda e Phillips"),
     ("C745", "Ferramentas a bateria"), ("C746", "Ferramentas automotivas"),
     ("C747", "Ferramentas de medição"), ("C748", "Ferramentas elétricas"),
     ("C749", "Ferramentas para jardim"), ("C750", "Ferramentas para pintura"),
     ("C751", "Ferramentas para solda"), ("C752", "Jogos de chave combinada"),
     ("C753", "Jogos de ferramentas"), ("C754", "Jogos de soquetes"),
     ("C755", "Torquímetro")]),
   ("S43",
    [("C028", "Lonas e toldos"), ("C082", "Outros materiais MRO"),
     ("C772", "Adubos e fertilizantes")]),
   ("S46",
    [("C029", "Adaptadores, conexões e terminais"), ("C083", "Amortecedor"),
     ("C135", "Atuador pneumático"), ("C166", "Balancin"), ("C217", "Cilindros"),
     ("C242", "Eletroválvulas"), ("C289", "Engates rápidos"),
     ("C307", "Filtros de água"), ("C324", "Filtros de ar"),
     ("C337", "Filtros de gás"), ("C346", "Filtros industriais"),
     ("C358", "Flanges"), ("C366", "Luvas hidráulicas"),
     ("C377", "Mangueiras hidráulicas e industriais"),
     ("C390", "Outros materiais hidráulicos ou pneumáticos"), ("C395", "União"),
     ("C400", "Válvulas"), ("C719", "Filtros"), ("C722", "Válvulas")]),
   ("S47",
    [("C025", "Amplificadores"), ("C079", "Conduletes"),
     ("C132", "Fontes de energia"), ("C163", "Fusíveis e disjuntores"),
     ("C240", "Módulos"), ("C269", "Outros componentes eletrônicos"),
     ("C290", "Outros materiais elétricos"), ("C314", "Plugs e adaptadores"),
     ("C329", "Resistências"), ("C340", "Terminais"),
     ("C350", "Tomadas e interruptores"), ("C360", "Transformadores"),
     ("C773", "Cabos e fios elétricos"), ("C774", "Chaves magnéticas"),
     ("C775", "Contatores"), ("C776", "Energia solar"),
     ("C777", "Extensões elétricas e filtros de linha"),
     ("C778", "Ferramentas de eletricista"), ("C779", "Quadros e caixas elétricas"),
     ("C780", "Reatores e soquetes"), ("C781", "Tubos e eletrodutos")]),
   ("S49",
    [("C048", "Aditivos"), ("C103", "Graxas"), ("C150", "Óleos lubrificantes"),
     ("C183", "Outros fluidos")]),
   ("S51",
    [("C049", "Amortecedores"), ("C104", "Antiderrapantes para correias"),
     ("C151", "Correias e componentes"), ("C184", "Mancal"), ("C223", "Molas"),
     ("C253", "Outros componentes de partes mecânicas"), ("C275", "Polias"),
     ("C315", "Rolamentos"), ("C330", "Tensores de correias"), ("C382", "Molas")]),
   ("S54",
    [("C051", "Conexões"), ("C097", "Cotovelos"), ("C152", "Joelhos"),
     ("C178", "Luvas"), ("C224", "Niples PVC"), ("C249", "Tubos"),
     ("C278", "União")]),
   ("S71",
    [("C716", "Conexões"), ("C717", "Engates"), ("C718", "Esteira"),
     ("C719", "Filtros"), ("C720", "Mangueiras"),
     ("C721", "Outros materiais de automação industrial"), ("C722", "Válvulas"),
     ("C723", "Ventosas")]),
   ("S72",
    [("C724", "Bobinas kraft ou semi kraft"), ("C725", "Caixas de papelão"),
     ("C726", "Embalagens descartáveis"), ("C727", "Embalagens para delivery"),
     ("C728", "Envelopes de segurança"), ("C729", "Etiquetas e tags"),
     ("C730", "Filme stretch"), ("C731", "Fitas adesivas"),
     ("C732", "Fitas, laços e cordões"), ("C733", "Lacres"), ("C734", "Latas"),
     ("C735", "Pallets"), ("C736", "Potes e vidros"),
     ("C737", "Sacos e sacolas kraft"), ("C738", "Sacos e sacolas plásticas")]),
   ("S73",
    [("C214", "Outros objetos de iluminação"), ("C756", "Abajures e cúpulas"),
     ("C757", "Cordões de luz"), ("C758", "Fitas de LED"),
     ("C759", "Kits de lâmpadas"), ("C760", "Lâmpadas de LED"),
     ("C761", "Lâmpadas fluorescentes"), ("C762", "Lâmpadas halógenas"),
     ("C763", "Lâmpadas incandescentes"), ("C764", "Lâmpadas inteligentes"),
     ("C765", "Luminárias"), ("C766", "Lustres e pendentes"),
     ("C767", "Outros tipos de lâmpadas"), ("C768", "Painel de LED"),
     ("C769", "Refletores"), ("C770", "Soquetes para lâmpadas"),
     ("C771", "Spots")]),
   ("S74",
    [("C782", "Ácidos"), ("C783", "Gases"), ("C784", "Metais químicos"),
     ("C785", "Químicos inorgânicos"), ("C786", "Químicos orgânicos"),
     ("C787", "Reagentes químicos"), ("C788", "Solventes")])]

/-- MROClassifier.classify_department (lines 297-299): always D03. -/
def classify_department (_product : String) : String × String :=
  ("D03", (departments.lookup "D03").getD "")

/-- Abbreviated category prompt (opaque to the oracle). -/
def categoryPrompt (product : String) : String :=
  "Classifique este produto MRO em UMA categoria. PRODUTO: " ++ product

/-- Abbreviated subcategory prompt (opaque to the oracle). -/
def subcategoryPrompt (product cat : String) : String :=
  "Escolha a subcategoria mais específica. PRODUTO: " ++ product ++ " CATEGORIA: " ++ cat

/-- The keyword fallback of classify_category (lines 342-354). -/
def categoryFallback (product : String) (cats : List (String × String)) :
    String × String :=
  let pl := strLowerChars product.data
  if ["parafuso", "porca", "junta", "vedação"].any (fun w => containsSeq w.data pl) then
    ("S39", (cats.lookup "S39").getD "")
  else if ["ferramenta", "chave", "furadeira"].any (fun w => containsSeq w.data pl) then
    ("S41", (cats.lookup "S41").getD "")
  else if ["disjuntor", "rele", "contator", "modulo"].any (fun w => containsSeq w.data pl) then
    ("S47", (cats.lookup "S47").getD "")
  else if ["automação", "clp", "simatic"].any (fun w => containsSeq w.data pl) then
    ("S71", (cats.lookup "S71").getD "")
  else ("S43", (cats.lookup "S43").getD "")

/-- MROClassifier.classify_category (lines 301-354).  The guard is Python
`if cat and cat in cats`. -/
def classify_category (api : Api) (product dept : String) : String × String :=
  let cats := (categories_by_dept.lookup dept).getD []
  if cats.isEmpty then ("", "")
  else
    match claude_classify api (categoryPrompt product) searchSCode 5 with
    | some c =>
      if !c.isEmpty && (cats.lookup c).isSome then (c, (cats.lookup c).getD "")
      else categoryFallback product cats
    | none => categoryFallback product cats

/-- The fallback_map of classify_subcategory (lines 388-398). -/
def sub_fallback_map : List (String × String) :=
  [("S39", "C291"), ("S41", "C134"), ("S43", "C082"), ("S46", "C390"),
   ("S47", "C290"), ("S49", "C183"), ("S51", "C253"), ("S71", "C721"),
   ("S73", "C214")]

/-- The Others fallback of classify_subcategory (lines 386-401):
`fallback_map.get(cat, list(subs.keys())[0] if subs else '')`. -/
def subcategoryFallback (cat : String) (subs : List (String × String)) :
    String × String :=
  let fallback_code := (sub_fallback_map.lookup cat).getD
    (match subs with | [] => "" | s :: _ => s.1)
  (fallback_code, (subs.lookup fallback_code).getD "")

/-- MROClassifier.classify_subcategory (lines 356-401). -/
def classify_subcategory (api : Api) (product cat : String) : String × String :=
  let subs := (subcategories_by_cat.lookup cat).getD []
  if subs.isEmpty then ("", "")
  else
    match claude_classify api (subcategoryPrompt product cat) searchCCode 5 with
    | some c =>
      if !c.isEmpty && (subs.lookup c).isSome then (c, (subs.lookup c).getD "")
      else subcategoryFallback cat subs
    | none => subcategoryFallback cat subs

/-- The record built by MROClassifier.classify_product. -/
structure MROClassification where
  product_name : String
  batch_id : Option Int
  confidence : ℚ
  dept_code : String := ""
  dept_name : String := ""
  cat_code : String := ""
  cat_name : String := ""
  sub_code : String := ""
  sub_name : String := ""
  error : Option String := none

/-- MROClassifier.classify_product (lines 403-444).  The try/except adds an
`error` key only when an exception escapes; claude_classify catches all its
exceptions internally and no other modelled operation raises, so `error`
is always none.  Confidence: 0.33 base, +0.33 when cat_code is truthy,
+0.34 when sub_code is truthy. -/
def classify_product (api : Api) (product_name : String)
    (batch_id : Option Int := none) : MROClassification :=
  let d := classify_department product_name
  let c := classify_category api product_name d.1
  let s := if !c.1.isEmpty then classify_subcategory api product_name c.1 else ("", "")
  let conf0 := mkRat 33 100
  let conf1 := if !c.1.isEmpty then conf0 + mkRat 33 100 else conf0
  let conf2 := if !s.1.isEmpty then conf1 + mkRat 34 100 else conf1
  { product_name := product_name, batch_id := batch_id, confidence := conf2,
    dept_code := d.1, dept_name := d.2, cat_code := c.1, cat_name := c.2,
    sub_code := s.1, sub_name := s.2, error := none }

/-! ## MRODatabase and BatchProcessor (database_mro.py, batch_processor.py) -/

/-- mro_products rows; the columns the verified operations read or write
(name columns mirror the code columns and are omitted, as are the static
CSV import columns). -/
structure MRORow where
  id : Nat
  product_name : String
  processing_status : String := "pending"
  error_message : Option String := none
  new_category_code : Option String := none
  new_subcategory_code : Option String := none
  confidence_score : Option ℚ := none
  batch_id : Option Int := none
deriving Repr, DecidableEq

/-- MRODatabase.get_pending_products (database_mro.py lines 135-152):
`WHERE processing_status = 'pending' ORDER BY id` with `LIMIT` appended
only when the Python-truthy `limit` is nonzero. -/
def get_pending_products (rows : List MRORow) (limit : Nat) : List MRORow :=
  let q := List.insertionSort (fun a b : MRORow => a.id ≤ b.id)
    (rows.filter (fun r => r.processing_status == "pending"))
  if limit ≠ 0 then q.take limit else q

/-- MRODatabase.update_classification (database_mro.py lines 154-189):
sets the classification columns and status 'completed' on the row with the
given id. -/
def update_classification (rows : List MRORow) (product_id : Nat)
    (c : MROClassification) : List MRORow :=
  rows.map (fun r =>
    if r.id == product_id then
      { r with new_category_code := some c.cat_code,
               new_subcategory_code := some c.sub_code,
               confidence_score := some c.confidence,
               batch_id := c.batch_id,
               processing_status := "completed" }
    else r)

/-- MRODatabase.mark_as_error (database_mro.py lines 191-207). -/
def mark_as_error (rows : List MRORow) (product_id : Nat) (msg : String) :
    List MRORow :=
  rows.map (fun r =>
    if r.id == product_id then
      { r with processing_status := "error", error_message := some msg }
    else r)

/-- The per-product body of BatchProcessor.process_all_pending
(batch_processor.py lines 56-86): classify, then mark_as_error when the
classification carries an error key, else update_classification. -/
def process_product (api : Api) (bid : Int) (rows : List MRORow) (p : MRORow) :
    List MRORow :=
  let c := classify_product api p.product_name (some bid)
  match c.error with
  | some m => mark_as_error rows p.id m
  | none => update_classification rows p.id c

/-- BatchProcessor.process_all_pending (batch_processor.py lines 22-126):
fetch up to batch_size pending rows, stop when none remain, process each
product of the batch in order, increment the batch id, repeat.  The
unbounded `while True` is given explicit fuel; any fuel at least the
number of pending rows drains the queue (proved below). -/
def process_all_pending (api : Api) (batch_size : Nat) (bid : Int) :
    Nat → List MRORow → List MRORow
  | 0, rows => rows
  | fuel + 1, rows =>
    let batch := get_pending_products rows batch_size
    if batch.isEmpty then rows
    else process_all_pending api batch_size (bid + 1) fuel
      (batch.foldl (process_product api bid) rows)

/-- The reset loop of BatchProcessor.reprocess_errors (batch_processor.py
lines 207-213): for each selected error row, set its status to 'pending'
and clear error_message. -/
def reset_error_rows (rows errs : List MRORow) : List MRORow :=
  errs.foldl
    (fun rs p => rs.map (fun r =>
      if r.id == p.id then
        { r with processing_status := "pending", error_message := none }
      else r))
    rows

/-- BatchProcessor.reprocess_errors (batch_processor.py lines 185-223):
select the error rows (ORDER BY id), return unchanged when there are none,
otherwise reset them to pending and run process_all_pending in the same
invocation. -/
def reprocess_errors (api : Api) (batch_size : Nat) (bid : Int) (fuel : Nat)
    (rows : List MRORow) : List MRORow :=
  let errs := List.insertionSort (fun a b : MRORow => a.id ≤ b.id)
    (rows.filter (fun r => r.processing_status == "error"))
  if errs.isEmpty then rows
  else process_all_pending api batch_size bid fuel (reset_error_rows rows errs)

/-! ## Claim C4: what match resolution does to the dictionary -/

/-- All columns of a dictionary row except hit_count. -/
def BindingEq (e e' : DictEntry) : Prop :=
  e'.hash_key = e.hash_key ∧ e'.duplicate_group_id = e.duplicate_group_id ∧
  e'.key_type = e.key_type ∧ e'.confidence_weight = e.confidence_weight ∧
  e'.master_product_id = e.master_product_id

def c4dict : List DictEntry :=
  [{ hash_key := "parafuso sextavado", duplicate_group_id := 3,
     key_type := "exact", confidence_weight := mkRat 100 100,
     master_product_id := some 1, hit_count := 0 }]

def c5dict : List DictEntry :=
  [{ hash_key := "chave allen", duplicate_group_id := 4, key_type := "alpha",
     confidence_weight := mkRat 95 100, master_product_id := some 2,
     hit_count := 7 },
   { hash_key := "outra", duplicate_group_id := 6, key_type := "exact",
     confidence_weight := mkRat 100 100, master_product_id := some 3,
     hit_count := 0 }]

/-! ## Claims C6 and C7: match selection -/

/-- check_scan with the hit_count writes dropped: the accumulator part of
the loop against the initial dictionary (proof device; the hit_count
updates do not influence lookups). -/
def resolve_scan (w : List (String × ℚ)) (d : List DictEntry) :
    List (String × String) → Option Int → ℚ → Option Int × ℚ
  | [], bm, bs => (bm, bs)
  | (kt, hk) :: rest, bm, bs =>
    match findEntry d hk kt with
    | some e =>
      if keyWeight w kt > bs then
        resolve_scan w d rest (some e.duplicate_group_id) (keyWeight w kt)
      else resolve_scan w d rest bm bs
    | none => resolve_scan w d rest bm bs

def c6dict : List DictEntry :=
  [{ hash_key := "ka", duplicate_group_id := 7, key_type := "alpha",
     confidence_weight := mkRat 95 100, master_product_id := some 1, hit_count := 0 },
   { hash_key := "kc", duplicate_group_id := 9, key_type := "core",
     confidence_weight := mkRat 85 100, master_product_id := some 2, hit_count := 0 },
   { hash_key := "kd", duplicate_group_id := 9, key_type := "dim",
     confidence_weight := mkRat 85 100, master_product_id := some 2, hit_count := 0 },
   { hash_key := "kp", duplicate_group_id := 9, key_type := "phon",
     confidence_weight := mkRat 75 100, master_product_id := some 2, hit_count := 0 }]

def c6keys : List (String × String) :=
  [("exact", "kx"), ("alpha", "ka"), ("sorted", "ks"),
   ("core", "kc"), ("dim", "kd"), ("phon", "kp")]

def c7db : DbState :=
  { products_enhanced := [],
    duplicate_dictionary :=
      [{ hash_key := "5_core", duplicate_group_id := 5, key_type := "core",
         confidence_weight := mkRat 85 100, master_product_id := some 1,
         hit_count := 0 }] }

def c7product : ClassifiedProduct :=
  { original_name := "X", normalized_name := "x",
    hash_keys := [("exact", "x1"), ("alpha", "x2"), ("sorted", "x3"),
                  ("core", "5_core"), ("dim", "x4"), ("phon", "x5")] }

/-! ## Claim C1: group id allocation inside one batch -/

def c1state : DbState := { products_enhanced := [], duplicate_dictionary := [] }

def c1product1 : ClassifiedProduct :=
  { original_name := "PARAFUSO SEXTAVADO",
    normalized_name := "parafuso sextavado",
    hash_keys := generate_hash_keys "parafuso sextavado" }

def c1product2 : ClassifiedProduct :=
  { original_name := "PORCA INOX M10",
    normalized_name := "porca inox m10",
    hash_keys := generate_hash_keys "porca inox m10" }

/-! ## Orchestration lemmas for claims C3 and C9

Both the batch loop body and the error-reset loop have the shape
`foldl (fun rows p => rows.map (fun r => if r.id == p.id then f p r else r))`,
so the row-level behavior is developed once, for any id-preserving row
update `f`. -/

def pendingCount (rows : List MRORow) : Nat :=
  rows.countP (fun r => r.processing_status == "pending")

def guardStep (f : MRORow → MRORow → MRORow) (a p : MRORow) : MRORow :=
  if a.id == p.id then f p a else a

/-- The row written by update_classification for one product. -/
def completedRow (c : MROClassification) (r : MRORow) : MRORow :=
  { r with new_category_code := some c.cat_code,
           new_subcategory_code := some c.sub_code,
           confidence_score := some c.confidence,
           batch_id := c.batch_id,
           processing_status := "completed" }

/-- One batch step either leaves a row alone or completes a pending row. -/
def StepRel (r r' : MRORow) : Prop :=
  r'.id = r.id ∧ r'.product_name = r.product_name ∧
  (r' = r ∨ (r.processing_status = "pending" ∧ r'.processing_status = "completed" ∧
             r'.error_message = r.error_message))

/-- After a full drain: pending rows were completed (with error_message
untouched), all other rows are exactly unchanged. -/
def DoneRel (r r' : MRORow) : Prop :=
  r'.id = r.id ∧ r'.product_name = r.product_name ∧
  (if r.processing_status = "pending"
   then r'.processing_status = "completed" ∧ r'.error_message = r.error_message
   else r' = r)

/-! ## Claim C3: what actually happens when every classifier call fails -/

/-- The external service fails every call (rate limit or other error). -/
def ApiAlwaysFails (api : Api) : Prop :=
  ∀ prompt n text, api prompt n ≠ ApiOutcome.ok text

def failing_api : Api := fun _ _ => ApiOutcome.rateLimit

def c3rows : List MRORow :=
  [{ id := 1, product_name := "parafuso m8" },
   { id := 2, product_name := "broca x" }]

/-! ## Claim C9: reprocessing error products -/

/-- The row written by the reset loop of reprocess_errors. -/
def resetRow (r : MRORow) : MRORow :=
  { r with processing_status := "pending", error_message := none }

/-- The error rows selected by reprocess_errors (ORDER BY id). -/
def selected_errors (rows : List MRORow) : List MRORow :=
  List.insertionSort (fun a b : MRORow => a.id ≤ b.id)
    (rows.filter (fun r => r.processing_status == "error"))

def c9rows : List MRORow :=
  [{ id := 1, product_name := "parafuso m8", processing_status := "error",
     error_message := some "API timeout" },
   { id := 2, product_name := "broca x", processing_status := "completed" },
   { id := 3, product_name := "chave t", processing_status := "pending" }]

/-! ## Theorems -/

example : normalize_product_name "sext" = "sextavado" := by decide
example : normalize_product_name "sextavado" = "sextavadoavado" := by decide
example : normalize_product_name "  PARAFUSO   SEXT. 1/2  " = "parafuso sextavado. 12.7" := by decide
example : (generate_hash_keys "parafuso sextavado m8").map Prod.fst =
    ["exact", "alpha", "sorted", "core", "dim", "phon"] := by decide
example : (generate_hash_keys "parafuso sextavado 10mm").lookup "dim" = some "10_mm" := by decide
example : (generate_hash_keys "parafuso sextavado 10mm").lookup "core" =
    some "parafuso_sextavado" := by decide
example : (generate_hash_keys "parafuso sextavado 10mm").lookup "sorted" =
    some "10mm_parafuso_sextavado" := by decide
example : (generate_hash_keys "parafuso sextavado 10mm").lookup "phon" = some "parsex10m" := by decide
example : (generate_hash_keys "bomba 2 x 3").lookup "dim" = some "2_3" := by decide

example :
    (classify_product (fun _ _ => ApiOutcome.rateLimit) "broca de aço").cat_code = "S43" := by
  decide
example :
    (classify_product (fun _ _ => ApiOutcome.rateLimit) "parafuso m8").cat_code = "S39" := by
  decide
example :
    (classify_product (fun _ _ => ApiOutcome.rateLimit) "parafuso m8").sub_code = "C291" := by
  decide
example :
    (classify_product (fun _ _ => ApiOutcome.ok "uso S41 aqui") "martelo").sub_code = "C134" := by
  decide
example :
    ((process_all_pending (fun _ _ => ApiOutcome.rateLimit) 10 1 2
      [{ id := 1, product_name := "parafuso m8" },
       { id := 2, product_name := "broca x" }]).map
        (fun r => r.processing_status)) = ["completed", "completed"] := by decide

/-! ## General helper lemmas -/

theorem forall₂_compose {α : Type} {R S T : α → α → Prop}
    (h : ∀ a b c, R a b → S b c → T a c) :
    ∀ {l₁ l₂ l₃ : List α}, List.Forall₂ R l₁ l₂ → List.Forall₂ S l₂ l₃ →
      List.Forall₂ T l₁ l₃ := by
  intro l₁ l₂ l₃ h₁ h₂
  induction h₁ generalizing l₃ with
  | nil => cases h₂; exact .nil
  | cons hr _ ih =>
    cases h₂ with
    | cons hs ht => exact .cons (h _ _ _ hr hs) (ih ht)

theorem mem_keys_of_lookup_isSome {α β : Type} [BEq α] [LawfulBEq α]
    {l : List (α × β)} {k : α} (h : (l.lookup k).isSome = true) :
    k ∈ l.map Prod.fst := by
  induction l with
  | nil => simp [List.lookup] at h
  | cons p ps ih =>
    by_cases hk : k == p.1
    · simp [eq_of_beq hk]
    · simp only [List.lookup, hk] at h
      simpa using Or.inr (ih h)

theorem mem_of_lookup_eq_some {α β : Type} [BEq α] [LawfulBEq α]
    {l : List (α × β)} {k : α} {v : β} (h : l.lookup k = some v) : (k, v) ∈ l := by
  induction l with
  | nil => simp [List.lookup] at h
  | cons p ps ih =>
    by_cases hk : k == p.1
    · simp only [List.lookup, hk] at h
      obtain ⟨rfl⟩ := h
      simp [eq_of_beq hk]
    · simp only [List.lookup, hk] at h
      exact List.mem_cons_of_mem _ (ih h)

theorem str_isEmpty_false {s : String} (h : s ≠ "") : s.isEmpty = false := by
  cases he : s.isEmpty
  · rfl
  · exact absurd ((String.isEmpty_iff s).mp he) h

theorem countP_lt_of_mem {α : Type} {P Q : α → Bool} :
    ∀ {l : List α}, (∀ a ∈ l, Q a = true → P a = true) →
      ∀ a₀, a₀ ∈ l → P a₀ = true → Q a₀ = false →
      l.countP Q < l.countP P := by
  intro l
  induction l with
  | nil => intro _ a₀ h; cases h
  | cons a as ih =>
    intro hmono a₀ hmem hP hQ
    rcases List.mem_cons.mp hmem with rfl | hmem'
    · have h1 : as.countP Q ≤ as.countP P :=
        List.countP_mono_left (fun x hx => hmono x (List.mem_cons_of_mem _ hx))
      simp [List.countP_cons, hP, hQ]
      omega
    · have h2 : as.countP Q < as.countP P :=
        ih (fun x hx => hmono x (List.mem_cons_of_mem _ hx)) a₀ hmem' hP hQ
      have h3 : (if Q a = true then 1 else 0) ≤ (if P a = true then 1 else 0) := by
        by_cases hqa : Q a = true
        · simp [hqa, hmono a (List.mem_cons_self a as) hqa]
        · simp [hqa]
      simp only [List.countP_cons]
      omega

theorem bindingEq_refl (e : DictEntry) : BindingEq e e := ⟨rfl, rfl, rfl, rfl, rfl⟩

theorem bindingEq_trans {a b c : DictEntry} (h₁ : BindingEq a b) (h₂ : BindingEq b c) :
    BindingEq a c := by
  obtain ⟨x1, x2, x3, x4, x5⟩ := h₁
  obtain ⟨y1, y2, y3, y4, y5⟩ := h₂
  exact ⟨y1.trans x1, y2.trans x2, y3.trans x3, y4.trans x4, y5.trans x5⟩

theorem bumpHitCount_pointwise (d : List DictEntry) (hk : String) :
    List.Forall₂ (fun e e' => BindingEq e e' ∧
        e'.hit_count = e.hit_count + (if e.hash_key = hk then 1 else 0))
      d (bumpHitCount d hk) := by
  induction d with
  | nil => exact .nil
  | cons e es ih =>
    refine .cons ?_ ih
    by_cases h : e.hash_key == hk
    · simp [bumpHitCount, h, eq_of_beq h, BindingEq]
    · have h' : ¬ e.hash_key = hk := fun hh => h (beq_iff_eq.mpr hh)
      simp [bumpHitCount, h, h', BindingEq]

theorem bumpHitCount_bindings (d : List DictEntry) (hk : String) :
    List.Forall₂ BindingEq d (bumpHitCount d hk) := by
  have h := bumpHitCount_pointwise d hk
  exact List.Forall₂.imp (fun _ _ hp => hp.1) h

theorem check_scan_bindings (w : List (String × ℚ)) :
    ∀ (ks : List (String × String)) (d : List DictEntry) (bm : Option Int) (bs : ℚ),
      List.Forall₂ BindingEq d (check_scan w ks d bm bs).1 := by
  intro ks
  induction ks with
  | nil => intro d bm bs; exact (List.forall₂_same).mpr (fun e _ => bindingEq_refl e)
  | cons kv rest ih =>
    intro d bm bs
    obtain ⟨kt, hk⟩ := kv
    show List.Forall₂ BindingEq d (check_scan w ((kt, hk) :: rest) d bm bs).1
    unfold check_scan
    cases hfe : findEntry d hk kt with
    | some e =>
      simp only [hfe]
      have hbump := bumpHitCount_bindings d hk
      by_cases hs : keyWeight w kt > bs
      · simp only [if_pos hs]
        exact @forall₂_compose DictEntry BindingEq BindingEq BindingEq
          (fun _ _ _ h₁ h₂ => bindingEq_trans h₁ h₂) _ _ _ hbump (ih _ _ _)
      · simp only [if_neg hs]
        exact @forall₂_compose DictEntry BindingEq BindingEq BindingEq
          (fun _ _ _ h₁ h₂ => bindingEq_trans h₁ h₂) _ _ _ hbump (ih _ _ _)
    | none => simp only [hfe]; exact ih _ _ _

/-- Claim C4 (amended): check_duplicate_by_keys does write the dictionary,
but only the hit_count column: every row keeps its hash_key,
duplicate_group_id, key_type, confidence_weight and master_product_id, and
no row is inserted or removed. -/
theorem C4_lookup_preserves_bindings (dict : List DictEntry)
    (ks : List (String × String)) (w : List (String × ℚ)) :
    (check_duplicate_by_keys dict ks w).1.length = dict.length ∧
    List.Forall₂ BindingEq dict (check_duplicate_by_keys dict ks w).1 := by
  have h : List.Forall₂ BindingEq dict (check_duplicate_by_keys dict ks w).1 :=
    check_scan_bindings w ks dict none 0
  exact ⟨(List.Forall₂.length_eq h).symm, h⟩

/-- Claim C4 (counterexample to the claim as stated): a lookup that finds a
row changes the dictionary — the matched row's hit_count is incremented,
so the state is not left unchanged. -/
theorem C4_counterexample :
    (check_duplicate_by_keys c4dict [("exact", "parafuso sextavado")] key_weights).1 ≠ c4dict ∧
    (check_duplicate_by_keys c4dict [("exact", "parafuso sextavado")] key_weights).1.map
        (fun e => e.hit_count) = [1] := by
  refine ⟨?_, by decide⟩
  decide

/-! ## Claim C5: first-writer-wins in register_product_keys -/

/-- Claim C5: an insert attempt (one INSERT ... ON CONFLICT step of
register_product_keys) for a hash_key that is already present leaves every
row's binding columns unchanged and adds exactly one to the hit_count of
the rows holding that hash_key; no row is added. -/
theorem C5_first_writer_wins (d : List DictEntry) (hk : String)
    (gid : Int) (kt : String) (w : ℚ) (pid : Int)
    (hpresent : d.any (fun e => e.hash_key == hk) = true) :
    List.Forall₂ (fun e e' => BindingEq e e' ∧
        e'.hit_count = e.hit_count + (if e.hash_key = hk then 1 else 0))
      d (insertOrBump d hk gid kt w pid) := by
  unfold insertOrBump
  rw [if_pos hpresent]
  exact bumpHitCount_pointwise d hk

theorem C5_first_writer_wins_witness :
    List.Forall₂ (fun e e' => BindingEq e e' ∧
        e'.hit_count = e.hit_count + (if e.hash_key = "chave allen" then 1 else 0))
      c5dict (insertOrBump c5dict "chave allen" 99 "dim" (mkRat 85 100) 50) :=
  C5_first_writer_wins c5dict "chave allen" 99 "dim" (mkRat 85 100) 50 (by decide)

theorem findEntry_bump (d : List DictEntry) (hk₀ hk kt : String) :
    findEntry (bumpHitCount d hk₀) hk kt =
      (findEntry d hk kt).map
        (fun e => if e.hash_key == hk₀ then { e with hit_count := e.hit_count + 1 } else e) := by
  unfold findEntry bumpHitCount
  rw [List.find?_map]
  have hp : ((fun e : DictEntry => e.hash_key == hk && e.key_type == kt) ∘
      (fun e => if e.hash_key == hk₀ then { e with hit_count := e.hit_count + 1 } else e)) =
      (fun e : DictEntry => e.hash_key == hk && e.key_type == kt) := by
    funext e
    by_cases h : e.hash_key == hk₀ <;> simp [Function.comp, h]
  rw [hp]

theorem resolve_scan_bump (w : List (String × ℚ)) :
    ∀ (ks : List (String × String)) (d : List DictEntry) (hk₀ : String)
      (bm : Option Int) (bs : ℚ),
      resolve_scan w (bumpHitCount d hk₀) ks bm bs = resolve_scan w d ks bm bs := by
  intro ks
  induction ks with
  | nil => intro d hk₀ bm bs; rfl
  | cons kv rest ih =>
    intro d hk₀ bm bs
    obtain ⟨kt, hk⟩ := kv
    show resolve_scan w (bumpHitCount d hk₀) ((kt, hk) :: rest) bm bs =
      resolve_scan w d ((kt, hk) :: rest) bm bs
    unfold resolve_scan
    cases hfe : findEntry d hk kt with
    | none =>
      rw [findEntry_bump, hfe]
      exact ih d hk₀ bm bs
    | some e =>
      have hfe' : findEntry (bumpHitCount d hk₀) hk kt =
          some (if e.hash_key == hk₀ then { e with hit_count := e.hit_count + 1 } else e) := by
        rw [findEntry_bump, hfe]
        rfl
      rw [hfe']
      dsimp only
      have hgid : (if e.hash_key == hk₀ then
          { e with hit_count := e.hit_count + 1 } else e).duplicate_group_id =
          e.duplicate_group_id := by
        by_cases hb : e.hash_key == hk₀ <;> simp [hb]
      rw [hgid]
      by_cases hs : keyWeight w kt > bs
      · rw [if_pos hs, if_pos hs]
        exact ih d hk₀ _ _
      · rw [if_neg hs, if_neg hs]
        exact ih d hk₀ bm bs

theorem check_scan_eq_resolve (w : List (String × ℚ)) :
    ∀ (ks : List (String × String)) (d : List DictEntry) (bm : Option Int) (bs : ℚ),
      (check_scan w ks d bm bs).2 = resolve_scan w d ks bm bs := by
  intro ks
  induction ks with
  | nil => intro d bm bs; rfl
  | cons kv rest ih =>
    intro d bm bs
    obtain ⟨kt, hk⟩ := kv
    show (check_scan w ((kt, hk) :: rest) d bm bs).2 = resolve_scan w d ((kt, hk) :: rest) bm bs
    unfold check_scan resolve_scan
    cases hfe : findEntry d hk kt with
    | none => simp only [hfe]; exact ih d bm bs
    | some e =>
      simp only [hfe]
      by_cases hs : keyWeight w kt > bs
      · simp only [if_pos hs]
        rw [ih, resolve_scan_bump]
      · simp only [if_neg hs]
        rw [ih, resolve_scan_bump]

theorem resolve_scan_mono (w : List (String × ℚ)) (d : List DictEntry) :
    ∀ (ks : List (String × String)) (bm : Option Int) (bs : ℚ),
      bs ≤ (resolve_scan w d ks bm bs).2 := by
  intro ks
  induction ks with
  | nil => intro bm bs; exact le_refl bs
  | cons kv rest ih =>
    intro bm bs
    obtain ⟨kt, hk⟩ := kv
    show bs ≤ (resolve_scan w d ((kt, hk) :: rest) bm bs).2
    unfold resolve_scan
    cases hfe : findEntry d hk kt with
    | none => exact ih bm bs
    | some e =>
      by_cases hs : keyWeight w kt > bs
      · simp only [hs, reduceIte]
        exact le_trans (le_of_lt hs) (ih _ _)
      · simp only [hs, reduceIte]
        exact ih bm bs

theorem resolve_scan_le (w : List (String × ℚ)) (d : List DictEntry) :
    ∀ (ks : List (String × String)) (bm : Option Int) (bs : ℚ)
      (kt hk : String) (e : DictEntry),
      (kt, hk) ∈ ks → findEntry d hk kt = some e →
      keyWeight w kt ≤ (resolve_scan w d ks bm bs).2 := by
  intro ks
  induction ks with
  | nil => intro bm bs kt hk e hmem; cases hmem
  | cons kv rest ih =>
    intro bm bs kt hk e hmem hfind
    rcases List.mem_cons.mp hmem with heq | hmem'
    · subst heq
      show keyWeight w kt ≤ (resolve_scan w d ((kt, hk) :: rest) bm bs).2
      unfold resolve_scan
      rw [hfind]
      by_cases hs : keyWeight w kt > bs
      · simp only [hs, reduceIte]
        exact resolve_scan_mono w d rest _ _
      · simp only [hs, reduceIte]
        exact le_trans (not_lt.mp hs) (resolve_scan_mono w d rest bm bs)
    · obtain ⟨kt₀, hk₀⟩ := kv
      show keyWeight w kt ≤ (resolve_scan w d ((kt₀, hk₀) :: rest) bm bs).2
      unfold resolve_scan
      cases hfe : findEntry d hk₀ kt₀ with
      | none => exact ih bm bs kt hk e hmem' hfind
      | some e₀ =>
        by_cases hs : keyWeight w kt₀ > bs
        · simp only [hs, reduceIte]
          exact ih _ _ kt hk e hmem' hfind
        · simp only [hs, reduceIte]
          exact ih bm bs kt hk e hmem' hfind

theorem resolve_scan_attained (w : List (String × ℚ)) (d : List DictEntry) :
    ∀ (ks : List (String × String)) (bm : Option Int) (bs : ℚ),
      resolve_scan w d ks bm bs = (bm, bs) ∨
      ∃ kt hk e, (kt, hk) ∈ ks ∧ findEntry d hk kt = some e ∧
        (resolve_scan w d ks bm bs).1 = some e.duplicate_group_id ∧
        (resolve_scan w d ks bm bs).2 = keyWeight w kt := by
  intro ks
  induction ks with
  | nil => intro bm bs; exact Or.inl rfl
  | cons kv rest ih =>
    intro bm bs
    obtain ⟨kt₀, hk₀⟩ := kv
    show resolve_scan w d ((kt₀, hk₀) :: rest) bm bs = (bm, bs) ∨ _
    unfold resolve_scan
    cases hfe : findEntry d hk₀ kt₀ with
    | none =>
      rcases ih bm bs with h | ⟨kt, hk, e, hmem, hfind, h1, h2⟩
      · exact Or.inl h
      · exact Or.inr ⟨kt, hk, e, List.mem_cons_of_mem _ hmem, hfind, h1, h2⟩
    | some e₀ =>
      by_cases hs : keyWeight w kt₀ > bs
      · simp only [hs, reduceIte]
        rcases ih (some e₀.duplicate_group_id) (keyWeight w kt₀) with h | ⟨kt, hk, e, hmem, hfind, h1, h2⟩
        · refine Or.inr ⟨kt₀, hk₀, e₀, List.mem_cons_self _ _, hfe, ?_, ?_⟩
          · rw [h]
          · rw [h]
        · exact Or.inr ⟨kt, hk, e, List.mem_cons_of_mem _ hmem, hfind, h1, h2⟩
      · simp only [hs, reduceIte]
        rcases ih bm bs with h | ⟨kt, hk, e, hmem, hfind, h1, h2⟩
        · exact Or.inl h
        · exact Or.inr ⟨kt, hk, e, List.mem_cons_of_mem _ hmem, hfind, h1, h2⟩

theorem check_duplicate_eq_resolve (dict : List DictEntry)
    (ks : List (String × String)) (w : List (String × ℚ)) :
    (check_duplicate_by_keys dict ks w).2 =
      (match (resolve_scan w dict ks none 0).1 with
       | some g =>
         if g ≠ 0 ∧ (resolve_scan w dict ks none 0).2 ≥ mkRat 85 100 then
           some (g, (resolve_scan w dict ks none 0).2)
         else none
       | none => none) := by
  unfold check_duplicate_by_keys
  dsimp only
  have h1 : (check_scan w ks dict none 0).2.1 = (resolve_scan w dict ks none 0).1 := by
    rw [check_scan_eq_resolve]
  have h2 : (check_scan w ks dict none 0).2.2 = (resolve_scan w dict ks none 0).2 := by
    rw [check_scan_eq_resolve]
  rw [h1, h2]

/-- Claim C6: when check_duplicate_by_keys returns a match, the returned
group is the one bound to a matching key type of maximal weight — the
score is that single key type's weight, every other matching key type
weighs no more, and groups matched only at lower weights are discarded
(only the argmax group is returned, never a vote count). -/
theorem C6_single_highest_weight (dict : List DictEntry)
    (ks : List (String × String)) (w : List (String × ℚ)) (g : Int) (s : ℚ)
    (h : (check_duplicate_by_keys dict ks w).2 = some (g, s)) :
    ∃ kt hk e, (kt, hk) ∈ ks ∧ findEntry dict hk kt = some e ∧
      e.duplicate_group_id = g ∧ s = keyWeight w kt ∧
      ∀ kt' hk' e', (kt', hk') ∈ ks → findEntry dict hk' kt' = some e' →
        keyWeight w kt' ≤ s := by
  rw [check_duplicate_eq_resolve] at h
  cases hbm : (resolve_scan w dict ks none 0).1 with
  | none => rw [hbm] at h; cases h
  | some g₀ =>
    rw [hbm] at h
    dsimp only at h
    by_cases hcond : g₀ ≠ 0 ∧ (resolve_scan w dict ks none 0).2 ≥ mkRat 85 100
    · rw [if_pos hcond] at h
      have hg : g₀ = g := (Prod.mk.injEq _ _ _ _).mp (Option.some.inj h) |>.1
      have hsval : (resolve_scan w dict ks none 0).2 = s :=
        (Prod.mk.injEq _ _ _ _).mp (Option.some.inj h) |>.2
      rcases resolve_scan_attained w dict ks none 0 with hflat | ⟨kt, hk, e, hmem, hfind, h1, h2⟩
      · rw [hflat] at hbm; cases hbm
      · rw [hbm] at h1
        refine ⟨kt, hk, e, hmem, hfind, ?_, ?_, ?_⟩
        · have : some e.duplicate_group_id = some g₀ := h1.symm
          rw [hg] at this
          exact Option.some.inj this
        · rw [← hsval, h2]
        · intro kt' hk' e' hmem' hfind'
          rw [← hsval]
          exact resolve_scan_le w dict ks none 0 kt' hk' e' hmem' hfind'
    · rw [if_neg hcond] at h; cases h

/-- Witness for C6: one strong alpha signal for group 7 outranks three
lower-weight matches that all vote for group 9. -/
theorem C6_single_highest_weight_witness :
    ∃ kt hk e, (kt, hk) ∈ c6keys ∧ findEntry c6dict hk kt = some e ∧
      e.duplicate_group_id = 7 ∧ (mkRat 95 100) = keyWeight key_weights kt ∧
      ∀ kt' hk' e', (kt', hk') ∈ c6keys → findEntry c6dict hk' kt' = some e' →
        keyWeight key_weights kt' ≤ mkRat 95 100 :=
  C6_single_highest_weight c6dict c6keys key_weights 7 (mkRat 95 100) (by decide)

/-- Claim C7: a best match of weight exactly 0.85 with a nonzero group is
classified as a duplicate (inclusive threshold): check_duplicate_by_keys
returns the group with confidence 0.85, and detect_duplicates marks the
product a non-master member of that group. -/
theorem C7_inclusive_threshold (db : DbState) (p : ClassifiedProduct) (g : Int)
    (hg : g ≠ 0)
    (hbest : (check_scan key_weights p.hash_keys db.duplicate_dictionary none 0).2 =
      (some g, mkRat 85 100)) :
    (check_duplicate_by_keys db.duplicate_dictionary p.hash_keys key_weights).2 =
      some (g, mkRat 85 100) ∧
    (detect_duplicates db [p]).2.map
        (fun q => (q.duplicate_group_id, q.similarity_score, q.is_master)) =
      [(g, mkRat 85 100, false)] := by
  have hresolve : resolve_scan key_weights db.duplicate_dictionary p.hash_keys none 0 =
      (some g, mkRat 85 100) := by
    rw [← check_scan_eq_resolve]
    exact hbest
  have h1 : (check_duplicate_by_keys db.duplicate_dictionary p.hash_keys key_weights).2 =
      some (g, mkRat 85 100) := by
    rw [check_duplicate_eq_resolve, hresolve]
    dsimp only
    rw [if_pos ⟨hg, le_refl _⟩]
  refine ⟨h1, ?_⟩
  unfold detect_duplicates
  dsimp only
  rw [h1]
  rfl

theorem C7_inclusive_threshold_witness :
    (check_duplicate_by_keys c7db.duplicate_dictionary c7product.hash_keys key_weights).2 =
      some (5, mkRat 85 100) ∧
    (detect_duplicates c7db [c7product]).2.map
        (fun q => (q.duplicate_group_id, q.similarity_score, q.is_master)) =
      [(5, mkRat 85 100, false)] :=
  C7_inclusive_threshold c7db c7product 5 (by decide) (by decide)

/-- Claim C1 fails on the code: get_next_group_id is a read of
MAX(duplicate_group_id) over saved products, and detect_duplicates saves
nothing while it resolves a batch, so the two distinct new master products
of one batch receive the SAME duplicate_group_id (both get 1 on an empty
table) — the second nextGroupID call repeats the first value. -/
theorem C1_group_id_collision :
    (detect_duplicates c1state [c1product1, c1product2]).2.map
        (fun q => (q.duplicate_group_id, q.is_master)) = [(1, true), (1, true)] ∧
    get_next_group_id c1state.products_enhanced = 1 := by
  constructor
  · decide
  · decide

/-! ## Claim C2: idempotence of normalize_product_name -/

/-- Claim C2 fails on the code: the replacement 'sext' → 'sextavado'
re-triggers on its own output, so normalization is not idempotent.  At the
failing input "sext": one pass gives "sextavado", a second pass gives
"sextavadoavado". -/
theorem C2_normalize_not_idempotent :
    normalize_product_name "sext" = "sextavado" ∧
    normalize_product_name (normalize_product_name "sext") = "sextavadoavado" ∧
    normalize_product_name (normalize_product_name "sext") ≠
      normalize_product_name "sext" := by
  refine ⟨by decide, by decide, by decide⟩

/-! ## Claim C8: every product yields all six keys, dim never empty -/

theorem md5_hexdigest_length (s : List Char) : (md5_hexdigest s).length = 32 := by
  unfold md5_hexdigest
  rw [List.length_take, List.length_append, List.length_replicate]
  omega

theorem scanAllGo_prop {α : Type} (matchAt : List Char → Option (α × List Char))
    (P : α → Prop) (hmatch : ∀ l a r, matchAt l = some (a, r) → P a) :
    ∀ (fuel : Nat) (l : List Char) (x : α), x ∈ scanAllGo matchAt fuel l → P x := by
  intro fuel
  induction fuel with
  | zero => intro l x hx; cases hx
  | succ fuel ih =>
    intro l x hx
    cases l with
    | nil => cases hx
    | cons c cs =>
      unfold scanAllGo at hx
      cases hm : matchAt (c :: cs) with
      | some m =>
        rw [hm] at hx
        rcases List.mem_cons.mp hx with rfl | hx'
        · exact hmatch _ _ _ (by rw [hm])
        · exact ih m.2 x hx'
      | none =>
        rw [hm] at hx
        exact ih cs x hx

theorem scanAll_prop {α : Type} (matchAt : List Char → Option (α × List Char))
    (P : α → Prop) (hmatch : ∀ l a r, matchAt l = some (a, r) → P a)
    (l : List Char) (x : α) (hx : x ∈ scanAll matchAt l) : P x :=
  scanAllGo_prop matchAt P hmatch l.length l x hx

theorem matchP3At_nonempty (l : List Char) (a : List Char) (r : List Char)
    (h : matchP3At l = some (a, r)) : a ≠ [] := by
  unfold matchP3At at h
  cases l with
  | nil => cases h
  | cons c cs =>
    dsimp only at h
    by_cases hc : c == 'M'
    · rw [if_pos hc] at h
      by_cases he : (cs.span Char.isDigit).1.isEmpty
      · rw [if_pos he] at h; cases h
      · rw [if_neg he] at h
        have ha : (cs.span Char.isDigit).1 = a :=
          ((Prod.mk.injEq _ _ _ _).mp (Option.some.inj h)).1
        rw [← ha]
        intro hnil
        exact he (by rw [hnil]; rfl)
    · rw [if_neg hc] at h; cases h

theorem matchP4At_nonempty (l : List Char) (a : List Char) (r : List Char)
    (h : matchP4At l = some (a, r)) : a ≠ [] := by
  unfold matchP4At at h
  dsimp only at h
  by_cases he : (l.span Char.isDigit).1.isEmpty
  · rw [if_pos he] at h; cases h
  · rw [if_neg he] at h
    cases hs2 : (l.span Char.isDigit).2 with
    | nil => rw [hs2] at h; cases h
    | cons c cs =>
      rw [hs2] at h
      dsimp only at h
      by_cases hc : c == '/'
      · rw [if_pos hc] at h
        by_cases hf : (cs.span Char.isDigit).1.isEmpty
        · rw [if_pos hf] at h; cases h
        · rw [if_neg hf] at h
          have ha : (l.span Char.isDigit).1 ++ '/' :: (cs.span Char.isDigit).1 = a :=
            ((Prod.mk.injEq _ _ _ _).mp (Option.some.inj h)).1
          rw [← ha]
          simp
      · rw [if_neg hc] at h; cases h

theorem formatF2_ne_nil (q : ℚ) : formatF2 q ≠ [] := by
  unfold formatF2
  simp

theorem formatF1_ne_nil (q : ℚ) : formatF1 q ≠ [] := by
  unfold formatF1
  simp

theorem normalizeDim_ne_nil (d : List Char) (hd : d ≠ []) : normalizeDim d ≠ [] := by
  unfold normalizeDim
  by_cases h1 : d.contains '/'
  · rw [if_pos h1]
    split <;> first
      | exact hd
      | (split <;> first
          | exact hd
          | (split <;> first | exact hd | exact formatF2_ne_nil _))
  · rw [if_neg h1]
    by_cases h2 : containsSeq "pol".data d || d.contains '"'
    · rw [if_pos h2]
      split
      · exact formatF1_ne_nil _
      · exact hd
    · rw [if_neg h2]
      exact hd

theorem extract_dimensions_nonempty (t : String) :
    ∀ x ∈ extract_dimensions t, x ≠ [] := by
  intro x hx
  unfold extract_dimensions at hx
  rcases List.mem_map.mp hx with ⟨d₀, hd₀, rfl⟩
  refine normalizeDim_ne_nil d₀ ?_
  rcases List.mem_append.mp hd₀ with hL | h4
  · rcases List.mem_append.mp hL with hLL | h3
    · rcases List.mem_append.mp hLL with h1 | h2
      · revert h1
        split
        · intro h1; cases h1
        · intro h1
          have := (List.mem_filter.mp h1).2
          simpa using this
      · revert h2
        split
        · intro h2; cases h2
        · intro h2
          have := (List.mem_filter.mp h2).2
          simpa using this
    · exact scanAll_prop matchP3At (fun a => a ≠ [])
        (fun l a r h => matchP3At_nonempty l a r h) _ d₀ h3
  · exact scanAll_prop matchP4At (fun a => a ≠ [])
      (fun l a r h => matchP4At_nonempty l a r h) _ d₀ h4

theorem joinChars_ne_nil (sep : List Char) (ws : List (List Char))
    (hws : ws ≠ []) (hhead : ∀ x ∈ ws, x ≠ []) : joinChars sep ws ≠ [] := by
  cases ws with
  | nil => exact absurd rfl hws
  | cons w ws' =>
    cases ws' with
    | nil => exact hhead w (List.mem_cons_self _ _)
    | cons w' ws'' =>
      show w ++ sep ++ joinChars sep (w' :: ws'') ≠ []
      have hw : w ≠ [] := hhead w (List.mem_cons_self _ _)
      simp [List.append_eq_nil]
      intro hw'
      exact absurd hw' hw

theorem strMk_ne_empty (l : List Char) (h : l ≠ []) : (⟨l⟩ : String) ≠ "" := by
  intro hc
  exact h (congrArg String.data hc)

/-- Claim C8: generate_hash_keys always returns all six key types, in the
dict's insertion order, and the dim key is never the empty string: when no
dimension token is extracted it falls back to a 10-character prefix of the
32-hex-character content digest of the normalized name. -/
theorem C8_all_six_keys (name : String) :
    (generate_hash_keys name).map Prod.fst =
      ["exact", "alpha", "sorted", "core", "dim", "phon"] ∧
    ∃ d, (generate_hash_keys name).lookup "dim" = some d ∧ d ≠ "" := by
  refine ⟨rfl, _, rfl, ?_⟩
  by_cases he : (extract_dimensions name).isEmpty
  · rw [if_pos he]
    refine strMk_ne_empty _ ?_
    have h10 : ((md5_hexdigest name.data).take 10).length = 10 := by
      rw [List.length_take, md5_hexdigest_length]
      decide
    intro hnil
    rw [hnil] at h10
    cases h10
  · rw [if_neg he]
    refine strMk_ne_empty _ ?_
    refine joinChars_ne_nil _ _ ?_ (extract_dimensions_nonempty name)
    intro hc
    rw [hc] at he
    exact he rfl

/-! ## Claim C10: classify_product confidence is a constant -/

theorem categoryFallback_code_mem (product : String) :
    (categoryFallback product categories_D03).1 ∈ categories_D03.map Prod.fst := by
  unfold categoryFallback
  dsimp only
  repeat' split
  all_goals decide

theorem classify_category_code_mem (api : Api) (product : String) :
    (classify_category api product "D03").1 ∈ categories_D03.map Prod.fst := by
  unfold classify_category
  dsimp only
  have hcats : (categories_by_dept.lookup "D03").getD [] = categories_D03 := rfl
  rw [hcats]
  rw [if_neg (by decide : ¬ (categories_D03.isEmpty = true))]
  cases hcc : claude_classify api (categoryPrompt product) searchSCode 5 with
  | none => exact categoryFallback_code_mem product
  | some c =>
    dsimp only
    by_cases hcond : (!c.isEmpty && (categories_D03.lookup c).isSome) = true
    · rw [if_pos hcond]
      exact mem_keys_of_lookup_isSome (Bool.and_elim_right hcond)
    · rw [if_neg hcond]
      exact categoryFallback_code_mem product

theorem subcats_facts : ∀ c ∈ categories_D03.map Prod.fst,
    ((subcategories_by_cat.lookup c).getD []) ≠ [] ∧
    (∀ p ∈ (subcategories_by_cat.lookup c).getD [], p.1 ≠ "") := by decide

theorem fallback_map_vals : ∀ p ∈ sub_fallback_map, p.2 ≠ "" := by decide

theorem subcategoryFallback_code_ne (cat : String) (subs : List (String × String))
    (hne : subs ≠ []) (hkeys : ∀ p ∈ subs, p.1 ≠ "") :
    (subcategoryFallback cat subs).1 ≠ "" := by
  unfold subcategoryFallback
  dsimp only
  cases hl : sub_fallback_map.lookup cat with
  | some v =>
    simpa using fallback_map_vals (cat, v) (mem_of_lookup_eq_some hl)
  | none =>
    cases subs with
    | nil => exact absurd rfl hne
    | cons s ss => exact hkeys s (List.mem_cons_self _ _)

theorem classify_subcategory_code_ne (api : Api) (product cat : String)
    (hcat : cat ∈ categories_D03.map Prod.fst) :
    (classify_subcategory api product cat).1 ≠ "" := by
  obtain ⟨hsubs_ne, hsubs_keys⟩ := subcats_facts cat hcat
  unfold classify_subcategory
  dsimp only
  rw [if_neg (fun h => hsubs_ne (List.isEmpty_iff.mp h))]
  cases hcc : claude_classify api (subcategoryPrompt product cat) searchCCode 5 with
  | none => exact subcategoryFallback_code_ne cat _ hsubs_ne hsubs_keys
  | some c =>
    dsimp only
    by_cases hcond :
        (!c.isEmpty && (((subcategories_by_cat.lookup cat).getD []).lookup c).isSome) = true
    · rw [if_pos hcond]
      have hce : c.isEmpty = false := by
        have h1 := Bool.and_elim_left hcond
        cases hck : c.isEmpty
        · rfl
        · rw [hck] at h1; cases h1
      intro hc
      have hc' : c = "" := hc
      rw [hc'] at hce
      cases hce
    · rw [if_neg hcond]
      exact subcategoryFallback_code_ne cat _ hsubs_ne hsubs_keys

theorem cat_keys_ne : ∀ k ∈ categories_D03.map Prod.fst, k ≠ "" := by decide

/-- Claim C10: whenever classify_product returns (it never records an
error key in this embedding — claude_classify swallows its failures), the
confidence is the constant 0.33 + 0.33 + 0.34 = 1: the department is
always D03, classify_category always produces a nonempty code thanks to
the keyword fallback, and classify_subcategory always produces a nonempty
code thanks to the Others fallback, for every oracle behavior. -/
theorem C10_confidence_constant (api : Api) (name : String) (bid : Option Int) :
    (classify_product api name bid).error = none ∧
    (classify_product api name bid).confidence =
      mkRat 33 100 + mkRat 33 100 + mkRat 34 100 ∧
    (classify_product api name bid).confidence = 1 := by
  have hcat := classify_category_code_mem api name
  have hcatne : (classify_category api name "D03").1 ≠ "" := cat_keys_ne _ hcat
  have hsub := classify_subcategory_code_ne api name
    (classify_category api name "D03").1 hcat
  have hconf : (classify_product api name bid).confidence =
      mkRat 33 100 + mkRat 33 100 + mkRat 34 100 := by
    unfold classify_product classify_department
    dsimp only
    simp only [str_isEmpty_false hcatne, Bool.not_false, reduceIte]
    simp only [str_isEmpty_false hsub, Bool.not_false, reduceIte]
  refine ⟨rfl, hconf, ?_⟩
  rw [hconf]
  simp only [Rat.mkRat_eq_div]
  norm_num

theorem foldl_guard_eq_map (f : MRORow → MRORow → MRORow) :
    ∀ (ps rows : List MRORow),
      ps.foldl (fun rs p => rs.map (fun r => if r.id == p.id then f p r else r)) rows =
      rows.map (fun r => ps.foldl (guardStep f) r) := by
  intro ps
  induction ps with
  | nil => intro rows; simp
  | cons p ps ih =>
    intro rows
    rw [List.foldl_cons, ih, List.map_map]
    rfl

theorem guardFold_no_match (f : MRORow → MRORow → MRORow) :
    ∀ (ps : List MRORow) (r : MRORow),
      (∀ p ∈ ps, (r.id == p.id) = false) → ps.foldl (guardStep f) r = r := by
  intro ps
  induction ps with
  | nil => intro r _; rfl
  | cons p ps ih =>
    intro r h
    rw [List.foldl_cons]
    unfold guardStep
    rw [h p (List.mem_cons_self _ _)]
    simp only [Bool.false_eq_true, reduceIte]
    exact ih r (fun q hq => h q (List.mem_cons_of_mem _ hq))

theorem guardFold_find (f : MRORow → MRORow → MRORow)
    (hid : ∀ p r, (f p r).id = r.id) :
    ∀ (ps : List MRORow) (r : MRORow),
      ((ps.map (fun p => p.id)).Nodup) →
      ps.foldl (guardStep f) r =
        (match ps.find? (fun p => r.id == p.id) with
         | some p => f p r
         | none => r) := by
  intro ps
  induction ps with
  | nil => intro r _; rfl
  | cons p ps ih =>
    intro r hnd
    rw [List.foldl_cons]
    by_cases hm : (r.id == p.id) = true
    · have hfind : (p :: ps).find? (fun q => r.id == q.id) = some p := by
        rw [List.find?_cons]
        rw [hm]
      rw [hfind]
      show (ps.foldl (guardStep f) (guardStep f r p)) = f p r
      unfold guardStep
      rw [hm]
      simp only [reduceIte]
      apply guardFold_no_match
      intro q hq
      have hq_ne : q.id ≠ p.id := by
        have hnotin : p.id ∉ ps.map (fun p => p.id) := (List.nodup_cons.mp hnd).1
        intro hc
        exact hnotin (hc ▸ List.mem_map_of_mem (fun p => p.id) hq)
      have hfr : (f p r).id = r.id := hid p r
      rw [hfr]
      have hrp : r.id = p.id := beq_iff_eq.mp hm
      rw [hrp]
      cases hqb : (p.id == q.id)
      · rfl
      · exact absurd (beq_iff_eq.mp hqb).symm hq_ne
    · have hm' : (r.id == p.id) = false := by
        cases hb : (r.id == p.id)
        · rfl
        · exact absurd hb hm
      have hfind : (p :: ps).find? (fun q => r.id == q.id) =
          ps.find? (fun q => r.id == q.id) := by
        rw [List.find?_cons, hm']
      rw [hfind]
      show (ps.foldl (guardStep f) (guardStep f r p)) = _
      unfold guardStep
      rw [hm']
      simp only [Bool.false_eq_true, reduceIte]
      exact ih r (List.nodup_cons.mp hnd).2

/-- The classification record never carries an error key in this embedding
(mro_classifier.py catches every exception inside claude_classify). -/
theorem classify_product_error_none (api : Api) (name : String) (bid : Option Int) :
    (classify_product api name bid).error = none := rfl

theorem process_product_eq_map (api : Api) (bid : Int) (rows : List MRORow) (p : MRORow) :
    process_product api bid rows p =
      rows.map (fun r => if r.id == p.id then
        completedRow (classify_product api p.product_name (some bid)) r else r) := rfl

theorem completedRow_id (c : MROClassification) (r : MRORow) :
    (completedRow c r).id = r.id := rfl

theorem batch_foldl_eq_map (api : Api) (bid : Int) (batch rows : List MRORow) :
    batch.foldl (process_product api bid) rows =
      rows.map (fun r => batch.foldl
        (guardStep (fun (p r : MRORow) =>
          completedRow (classify_product api p.product_name (some bid)) r)) r) := by
  have h : batch.foldl (process_product api bid) rows =
      batch.foldl (fun rs p => rs.map (fun r => if r.id == p.id then
        completedRow (classify_product api p.product_name (some bid)) r else r)) rows := rfl
  rw [h, foldl_guard_eq_map]

/-! Facts about get_pending_products. -/

theorem get_pending_sub (rows : List MRORow) (n : Nat) :
    ∀ p ∈ get_pending_products rows n, p ∈ rows ∧ p.processing_status = "pending" := by
  unfold get_pending_products
  dsimp only
  intro p hp
  have hp' : p ∈ List.insertionSort (fun a b : MRORow => a.id ≤ b.id)
      (rows.filter (fun r => r.processing_status == "pending")) := by
    by_cases hn : n ≠ 0
    · rw [if_pos hn] at hp
      exact List.mem_of_mem_take hp
    · rw [if_neg hn] at hp
      exact hp
  have hp'' : p ∈ rows.filter (fun r => r.processing_status == "pending") :=
    (List.perm_insertionSort _ _).mem_iff.mp hp'
  have hm := List.mem_filter.mp hp''
  exact ⟨hm.1, beq_iff_eq.mp hm.2⟩

theorem get_pending_ids_nodup (rows : List MRORow) (n : Nat)
    (hnd : (rows.map (fun r => r.id)).Nodup) :
    ((get_pending_products rows n).map (fun r => r.id)).Nodup := by
  unfold get_pending_products
  dsimp only
  have h1 : ((rows.filter (fun r => r.processing_status == "pending")).map
      (fun r => r.id)).Nodup :=
    (List.Sublist.map (fun r => r.id) (List.filter_sublist rows)).nodup hnd
  have h2 : ((List.insertionSort (fun a b : MRORow => a.id ≤ b.id)
      (rows.filter (fun r => r.processing_status == "pending"))).map
      (fun r => r.id)).Nodup :=
    ((List.perm_insertionSort _ _).symm.map (fun r : MRORow => r.id)).nodup h1
  by_cases hn : n ≠ 0
  · rw [if_pos hn]
    exact (List.Sublist.map (fun r : MRORow => r.id) (List.take_sublist n _)).nodup h2
  · rw [if_neg hn]
    exact h2

theorem get_pending_empty_pending_zero (rows : List MRORow) (n : Nat)
    (h : (get_pending_products rows n).isEmpty = true) : pendingCount rows = 0 := by
  unfold get_pending_products at h
  dsimp only at h
  rw [List.isEmpty_eq_true] at h
  have hsorted : List.insertionSort (fun a b : MRORow => a.id ≤ b.id)
      (rows.filter (fun r => r.processing_status == "pending")) = [] := by
    by_cases hn : n ≠ 0
    · rw [if_pos hn] at h
      rcases List.take_eq_nil_iff.mp h with h0 | h0
      · exact absurd h0 hn
      · exact h0
    · rw [if_neg hn] at h
      exact h
  have hfilter : rows.filter (fun r => r.processing_status == "pending") = [] := by
    have hperm := List.perm_insertionSort (fun a b : MRORow => a.id ≤ b.id)
      (rows.filter (fun r => r.processing_status == "pending"))
    rw [hsorted] at hperm
    exact (hperm.symm).eq_nil
  unfold pendingCount
  rw [List.countP_eq_length_filter, hfilter]
  rfl

theorem stepRel_refl (r : MRORow) : StepRel r r := ⟨rfl, rfl, Or.inl rfl⟩

theorem stepRel_trans : ∀ a b c : MRORow, StepRel a b → StepRel b c → StepRel a c := by
  intro a b c ⟨ib, nb, hb⟩ ⟨ic, nc, hc⟩
  refine ⟨ic.trans ib, nc.trans nb, ?_⟩
  rcases hb with rfl | ⟨hap, hbcomp, hberr⟩
  · exact hc
  · rcases hc with rfl | ⟨hbp, _, _⟩
    · exact Or.inr ⟨hap, hbcomp, hberr⟩
    · rw [hbcomp] at hbp
      exact absurd hbp (by decide)

theorem batch_step_rel (api : Api) (bid : Int) (rows batch : List MRORow)
    (hnd : (rows.map (fun r => r.id)).Nodup)
    (hbnd : (batch.map (fun r => r.id)).Nodup)
    (hb : ∀ p ∈ batch, p ∈ rows ∧ p.processing_status = "pending") :
    List.Forall₂ StepRel rows (batch.foldl (process_product api bid) rows) := by
  rw [batch_foldl_eq_map]
  rw [List.forall₂_map_right_iff]
  rw [List.forall₂_same]
  intro r hr
  rw [guardFold_find _ (fun p r => completedRow_id _ r) batch r hbnd]
  cases hf : batch.find? (fun p => r.id == p.id) with
  | none => exact stepRel_refl r
  | some p =>
    have hps : (r.id == p.id) = true :=
      @List.find?_some MRORow (fun q => r.id == q.id) p batch hf
    have hpr : r.id = p.id := beq_iff_eq.mp hps
    have hpmem := List.mem_of_find?_eq_some hf
    obtain ⟨hprow, hppend⟩ := hb p hpmem
    have hrp : r = p := List.inj_on_of_nodup_map hnd hr hprow hpr
    refine ⟨rfl, rfl, Or.inr ⟨?_, rfl, rfl⟩⟩
    rw [hrp]
    exact hppend

theorem rowGuardFold_id (f : MRORow → MRORow → MRORow)
    (hid : ∀ p r, (f p r).id = r.id) :
    ∀ (ps : List MRORow) (r : MRORow), (ps.foldl (guardStep f) r).id = r.id := by
  intro ps
  induction ps with
  | nil => intro r; rfl
  | cons p ps ih =>
    intro r
    rw [List.foldl_cons]
    rw [ih (guardStep f r p)]
    unfold guardStep
    by_cases hm : (r.id == p.id) = true
    · rw [hm]
      simp only [reduceIte]
      exact hid p r
    · have hm' : (r.id == p.id) = false := by
        cases hbb : (r.id == p.id)
        · rfl
        · exact absurd hbb hm
      rw [hm']
      simp

theorem batch_step_ids (api : Api) (bid : Int) (rows batch : List MRORow) :
    (batch.foldl (process_product api bid) rows).map (fun r => r.id) =
      rows.map (fun r => r.id) := by
  rw [batch_foldl_eq_map, List.map_map]
  apply List.map_congr_left
  intro r _
  exact rowGuardFold_id _ (fun p r => completedRow_id _ r) batch r

theorem batch_step_pending_lt (api : Api) (bid : Int) (rows batch : List MRORow)
    (hbnd : (batch.map (fun r => r.id)).Nodup)
    (hb : ∀ p ∈ batch, p ∈ rows ∧ p.processing_status = "pending")
    (hne : batch ≠ []) :
    pendingCount (batch.foldl (process_product api bid) rows) < pendingCount rows := by
  rw [batch_foldl_eq_map]
  unfold pendingCount
  rw [List.countP_map]
  cases batch with
  | nil => exact absurd rfl hne
  | cons p₀ ps =>
    obtain ⟨hmem, hpend⟩ := hb p₀ (List.mem_cons_self _ _)
    refine countP_lt_of_mem ?_ p₀ hmem ?_ ?_
    · intro r _ hq
      simp only [Function.comp] at hq
      rw [guardFold_find _ (fun p r => completedRow_id _ r) (p₀ :: ps) r hbnd] at hq
      cases hf : (p₀ :: ps).find? (fun p => r.id == p.id) with
      | none => rw [hf] at hq; exact hq
      | some p => rw [hf] at hq; cases hq
    · show (p₀.processing_status == "pending") = true
      rw [hpend]
      rfl
    · show ((fun r : MRORow => r.processing_status == "pending") ∘ _) p₀ = false
      simp only [Function.comp]
      rw [guardFold_find _ (fun p r => completedRow_id _ r) (p₀ :: ps) p₀ hbnd]
      have hfind : (p₀ :: ps).find? (fun p => p₀.id == p.id) = some p₀ := by
        rw [List.find?_cons]
        rw [show (p₀.id == p₀.id) = true from beq_iff_eq.mpr rfl]
      rw [hfind]
      rfl

/-- Draining lemma: with fuel at least the number of pending rows,
process_all_pending relates every row by StepRel and leaves no pending
row. -/
theorem process_all_pending_drains (api : Api) (batch_size : Nat) :
    ∀ (fuel : Nat) (rows : List MRORow) (bid : Int),
      (rows.map (fun r => r.id)).Nodup →
      pendingCount rows ≤ fuel →
      List.Forall₂ StepRel rows (process_all_pending api batch_size bid fuel rows) ∧
      pendingCount (process_all_pending api batch_size bid fuel rows) = 0 := by
  intro fuel
  induction fuel with
  | zero =>
    intro rows bid _ hfuel
    refine ⟨List.forall₂_same.mpr (fun r _ => stepRel_refl r), ?_⟩
    exact Nat.le_zero.mp hfuel
  | succ fuel ih =>
    intro rows bid hnd hfuel
    show List.Forall₂ StepRel rows (process_all_pending api batch_size bid (fuel + 1) rows) ∧ _
    unfold process_all_pending
    dsimp only
    by_cases hbe : (get_pending_products rows batch_size).isEmpty
    · rw [if_pos hbe]
      exact ⟨List.forall₂_same.mpr (fun r _ => stepRel_refl r),
        get_pending_empty_pending_zero rows batch_size hbe⟩
    · rw [if_neg hbe]
      have hbnd := get_pending_ids_nodup rows batch_size hnd
      have hbsub := get_pending_sub rows batch_size
      have hne : get_pending_products rows batch_size ≠ [] := by
        intro h
        exact hbe (by rw [h]; rfl)
      have hrel₁ := batch_step_rel api bid rows (get_pending_products rows batch_size)
        hnd hbnd hbsub
      have hids₁ := batch_step_ids api bid rows (get_pending_products rows batch_size)
      have hnd₁ : (((get_pending_products rows batch_size).foldl
          (process_product api bid) rows).map (fun r => r.id)).Nodup := by
        rw [hids₁]; exact hnd
      have hlt := batch_step_pending_lt api bid rows (get_pending_products rows batch_size)
        hbnd hbsub hne
      have hfuel₁ : pendingCount ((get_pending_products rows batch_size).foldl
          (process_product api bid) rows) ≤ fuel := by omega
      obtain ⟨hrel₂, hzero⟩ := ih _ (bid + 1) hnd₁ hfuel₁
      exact ⟨@forall₂_compose MRORow StepRel StepRel StepRel stepRel_trans _ _ _ hrel₁ hrel₂,
        hzero⟩

theorem forall₂_steprel_to_done :
    ∀ {l₁ l₂ : List MRORow}, List.Forall₂ StepRel l₁ l₂ → pendingCount l₂ = 0 →
      List.Forall₂ DoneRel l₁ l₂ := by
  intro l₁ l₂ h
  induction h with
  | nil => intro; exact .nil
  | @cons a b as bs hr _ ih =>
    intro hz
    unfold pendingCount at hz
    rw [List.countP_cons] at hz
    cases hsb : (b.processing_status == "pending") with
    | true =>
      rw [hsb] at hz
      simp only [reduceIte] at hz
      exact absurd hz (by omega)
    | false =>
    rw [hsb] at hz
    simp only [Bool.false_eq_true, reduceIte] at hz
    have htail : pendingCount bs = 0 := by unfold pendingCount; omega
    have hbnp : ¬ b.processing_status = "pending" := by
      intro hc
      rw [hc] at hsb
      exact absurd hsb (by decide)
    refine .cons ?_ (ih htail)
    obtain ⟨hid, hname, hcase⟩ := hr
    refine ⟨hid, hname, ?_⟩
    by_cases hap : a.processing_status = "pending"
    · rw [if_pos hap]
      rcases hcase with rfl | ⟨_, hcomp, herr⟩
      · exact absurd hap hbnp
      · exact ⟨hcomp, herr⟩
    · rw [if_neg hap]
      rcases hcase with rfl | ⟨hap', _, _⟩
      · rfl
      · exact absurd hap' hap

theorem claude_classify_go_fails (api : Api) (hfail : ApiAlwaysFails api)
    (prompt : String) (extract : List Char → Option String) (max_retries : Nat) :
    ∀ (remaining attempt backoff : Nat),
      claude_classify_go api prompt extract max_retries remaining attempt backoff = none := by
  intro remaining
  induction remaining with
  | zero => intro attempt backoff; rfl
  | succ r ih =>
    intro attempt backoff
    unfold claude_classify_go
    cases ho : api prompt attempt with
    | ok text => exact absurd ho (hfail prompt attempt text)
    | rateLimit => exact ih (attempt + 1) (backoff * 2)
    | err m =>
      by_cases hl : (attempt == max_retries) = true
      · rw [if_pos hl]
      · rw [if_neg hl]
        exact ih (attempt + 1) (backoff * 2)

theorem claude_classify_fails (api : Api) (hfail : ApiAlwaysFails api)
    (prompt : String) (extract : List Char → Option String) :
    claude_classify api prompt extract 5 = none :=
  claude_classify_go_fails api hfail prompt extract 5 5 1 1

/-- Claim C3 (amended): when every classifier call fails until the retry
budget is exhausted, claude_classify returns None rather than raising; the
keyword/Others fallbacks then classify the product anyway, classify_product
carries no error, and the batch loop marks every pending product
'completed' — processing_status is never set to 'error' and error_message
is left untouched; the batch continues through all its products. -/
theorem C3_exhausted_retries_complete (api : Api) (hfail : ApiAlwaysFails api)
    (rows : List MRORow) (batch_size : Nat) (bid : Int) (fuel : Nat)
    (hnd : (rows.map (fun r => r.id)).Nodup)
    (hfuel : pendingCount rows ≤ fuel) :
    (∀ prompt extract, claude_classify api prompt extract 5 = none) ∧
    (∀ name bid₂, (classify_product api name bid₂).error = none) ∧
    List.Forall₂ DoneRel rows (process_all_pending api batch_size bid fuel rows) := by
  obtain ⟨hrel, hzero⟩ := process_all_pending_drains api batch_size fuel rows bid hnd hfuel
  exact ⟨fun prompt extract => claude_classify_fails api hfail prompt extract,
    fun name bid₂ => classify_product_error_none api name bid₂,
    forall₂_steprel_to_done hrel hzero⟩

/-- Claim C3 (counterexample to the claim as stated): with an external
service that fails every single call (failing_api always answers
RateLimitError), both pending products end with processing_status
'completed' and no error_message — not 'error' as the claim demands. -/
theorem C3_counterexample :
    (process_all_pending failing_api 10 1 2 c3rows).map
        (fun r => (r.processing_status, r.error_message)) =
      [("completed", none), ("completed", none)] := by decide

theorem C3_exhausted_retries_complete_witness :
    (∀ prompt extract, claude_classify failing_api prompt extract 5 = none) ∧
    (∀ name bid₂, (classify_product failing_api name bid₂).error = none) ∧
    List.Forall₂ DoneRel c3rows (process_all_pending failing_api 10 1 2 c3rows) :=
  C3_exhausted_retries_complete failing_api
    (fun _ _ text h => ApiOutcome.noConfusion h) c3rows 10 1 2 (by decide) (by decide)

theorem selected_errors_sub (rows : List MRORow) :
    ∀ p ∈ selected_errors rows, p ∈ rows ∧ p.processing_status = "error" := by
  intro p hp
  have hp' : p ∈ rows.filter (fun r => r.processing_status == "error") :=
    (List.perm_insertionSort _ _).mem_iff.mp hp
  have hm := List.mem_filter.mp hp'
  exact ⟨hm.1, beq_iff_eq.mp hm.2⟩

theorem selected_errors_mem (rows : List MRORow) (r : MRORow)
    (hr : r ∈ rows) (he : r.processing_status = "error") :
    r ∈ selected_errors rows := by
  refine (List.perm_insertionSort _ _).mem_iff.mpr ?_
  refine List.mem_filter.mpr ⟨hr, ?_⟩
  rw [he]
  rfl

theorem selected_errors_ids_nodup (rows : List MRORow)
    (hnd : (rows.map (fun r => r.id)).Nodup) :
    ((selected_errors rows).map (fun r => r.id)).Nodup := by
  have h1 : ((rows.filter (fun r => r.processing_status == "error")).map
      (fun r => r.id)).Nodup :=
    (List.Sublist.map (fun r => r.id) (List.filter_sublist rows)).nodup hnd
  exact ((List.perm_insertionSort _ _).symm.map (fun r : MRORow => r.id)).nodup h1

theorem reset_error_rows_spec (rows : List MRORow)
    (hnd : (rows.map (fun r => r.id)).Nodup) :
    reset_error_rows rows (selected_errors rows) =
      rows.map (fun r => if r.processing_status = "error" then resetRow r else r) := by
  have hshape : reset_error_rows rows (selected_errors rows) =
      rows.map (fun r => (selected_errors rows).foldl
        (guardStep (fun _ r => resetRow r)) r) :=
    foldl_guard_eq_map (fun _ r => resetRow r) (selected_errors rows) rows
  rw [hshape]
  apply List.map_congr_left
  intro r hr
  rw [guardFold_find (fun _ r => resetRow r) (fun _ _ => rfl) (selected_errors rows) r
    (selected_errors_ids_nodup rows hnd)]
  cases hf : (selected_errors rows).find? (fun p => r.id == p.id) with
  | some p =>
    have hps : (r.id == p.id) = true :=
      @List.find?_some MRORow (fun q => r.id == q.id) p (selected_errors rows) hf
    have hpr : r.id = p.id := beq_iff_eq.mp hps
    obtain ⟨hprow, herr⟩ := selected_errors_sub rows p (List.mem_of_find?_eq_some hf)
    have hrp : r = p := List.inj_on_of_nodup_map hnd hr hprow hpr
    rw [if_pos (by rw [hrp]; exact herr)]
  | none =>
    rw [if_neg ?_]
    intro he
    have hmem := selected_errors_mem rows r hr he
    have hsome : ((selected_errors rows).find? (fun p => r.id == p.id)).isSome = true :=
      List.find?_isSome.mpr ⟨r, hmem, beq_iff_eq.mpr rfl⟩
    rw [hf] at hsome
    cases hsome

theorem resetRow_map_ids (rows : List MRORow) :
    (rows.map (fun r => if r.processing_status = "error" then resetRow r else r)).map
      (fun r => r.id) = rows.map (fun r => r.id) := by
  rw [List.map_map]
  apply List.map_congr_left
  intro r _
  show (if r.processing_status = "error" then resetRow r else r).id = r.id
  split <;> rfl

/-- Claim C9: reprocess_errors first resets exactly the rows whose
processing_status is 'error' to 'pending' with error_message cleared
(rows in any other status are untouched by the reset), and then, in the
same invocation, the normal pending-batch loop picks them up: every
formerly-error row ends the run 'completed' with no error_message, and
every row that was neither 'error' nor 'pending' is returned identical. -/
theorem C9_reprocess_errors (api : Api) (batch_size : Nat) (bid : Int) (fuel : Nat)
    (rows : List MRORow)
    (hnd : (rows.map (fun r => r.id)).Nodup)
    (hfuel : rows.length ≤ fuel) :
    reset_error_rows rows (selected_errors rows) =
      rows.map (fun r => if r.processing_status = "error" then resetRow r else r) ∧
    List.Forall₂ (fun r r' => r'.id = r.id ∧
        (r.processing_status = "error" →
          r'.processing_status = "completed" ∧ r'.error_message = none) ∧
        (r.processing_status ≠ "error" → r.processing_status ≠ "pending" → r' = r))
      rows (reprocess_errors api batch_size bid fuel rows) := by
  refine ⟨reset_error_rows_spec rows hnd, ?_⟩
  unfold reprocess_errors
  dsimp only
  by_cases hbe : (selected_errors rows).isEmpty
  · rw [show (List.insertionSort (fun a b : MRORow => a.id ≤ b.id)
        (rows.filter (fun r => r.processing_status == "error"))) = selected_errors rows
      from rfl]
    rw [if_pos hbe]
    refine List.forall₂_same.mpr (fun r hr => ⟨rfl, ?_, fun _ _ => rfl⟩)
    intro he
    have hmem := selected_errors_mem rows r hr he
    rw [List.isEmpty_eq_true] at hbe
    rw [hbe] at hmem
    cases hmem
  · rw [show (List.insertionSort (fun a b : MRORow => a.id ≤ b.id)
        (rows.filter (fun r => r.processing_status == "error"))) = selected_errors rows
      from rfl]
    rw [if_neg hbe]
    have hreset := reset_error_rows_spec rows hnd
    rw [hreset]
    have hnd₁ : ((rows.map (fun r =>
        if r.processing_status = "error" then resetRow r else r)).map
        (fun r => r.id)).Nodup := by
      rw [resetRow_map_ids]; exact hnd
    have hfuel₁ : pendingCount (rows.map (fun r =>
        if r.processing_status = "error" then resetRow r else r)) ≤ fuel := by
      calc pendingCount (rows.map (fun r =>
          if r.processing_status = "error" then resetRow r else r)) ≤
          (rows.map (fun r =>
            if r.processing_status = "error" then resetRow r else r)).length :=
        List.countP_le_length _
      _ = rows.length := List.length_map _ _
      _ ≤ fuel := hfuel
    obtain ⟨hrel, hzero⟩ := process_all_pending_drains api batch_size fuel
      (rows.map (fun r => if r.processing_status = "error" then resetRow r else r))
      bid hnd₁ hfuel₁
    have hdone := forall₂_steprel_to_done hrel hzero
    have hmaprel : List.Forall₂
        (fun r r₁ => r₁ = if r.processing_status = "error" then resetRow r else r)
        rows (rows.map (fun r =>
          if r.processing_status = "error" then resetRow r else r)) := by
      rw [List.forall₂_map_right_iff]
      exact List.forall₂_same.mpr (fun r _ => rfl)
    refine @forall₂_compose MRORow _ _ _ ?_ _ _ _ hmaprel hdone
    intro a b c hab hbc
    obtain ⟨hid, hname, hcase⟩ := hbc
    by_cases hae : a.processing_status = "error"
    · rw [if_pos hae] at hab
      subst hab
      refine ⟨hid, ?_, ?_⟩
      · intro _
        rw [if_pos (show (resetRow a).processing_status = "pending" from rfl)] at hcase
        exact ⟨hcase.1, hcase.2⟩
      · intro hne _
        exact absurd hae hne
    · rw [if_neg hae] at hab
      subst hab
      refine ⟨hid, fun he => absurd he hae, ?_⟩
      intro _ hnp
      rw [if_neg hnp] at hcase
      exact hcase

theorem C9_reprocess_errors_witness :
    reset_error_rows c9rows (selected_errors c9rows) =
      c9rows.map (fun r => if r.processing_status = "error" then resetRow r else r) ∧
    List.Forall₂ (fun r r' => r'.id = r.id ∧
        (r.processing_status = "error" →
          r'.processing_status = "completed" ∧ r'.error_message = none) ∧
        (r.processing_status ≠ "error" → r.processing_status ≠ "pending" → r' = r))
      c9rows (reprocess_errors failing_api 10 1 3 c9rows) :=
  C9_reprocess_errors failing_api 10 1 3 c9rows (by decide) (by decide)
